import Mathlib

/-
  Verification of the trust/verification/detection engine of
  claude-test-reporter against its specification.

  The Python modules are shallowly embedded:
  * the loosely-typed nested dictionaries that `test_result_verifier.py`
    passes around are modelled by the JSON-like type `PyVal`;
  * Python floats are modelled as exact rationals; `round(x, n)` is
    round-half-to-even on rationals (it agrees with the Python float
    behaviour on every decimally-exact value exercised here);
  * `datetime.now()` is an explicit `String` parameter;
  * raised exceptions are `Except PyExn`;
  * `json.dumps(..., sort_keys=True)` and `hashlib.sha256(...).hexdigest()`
    are implemented executably below.
-/

namespace CTR

mutual

/-- A Python value as used by the verifier modules: the JSON-serialisable
fragment (None, bool, int, float, str, list, dict with string keys, in
insertion order).  Lists and dicts are their own inductive types so that
every function below is structural and kernel-computable. -/
inductive PyVal where
  | none : PyVal
  | bool (b : Bool) : PyVal
  | int (n : Int) : PyVal
  | float (q : Rat) : PyVal
  | str (s : String) : PyVal
  | list (xs : PyList) : PyVal
  | dict (entries : PyDict) : PyVal

/-- The elements of a Python list value. -/
inductive PyList where
  | nil : PyList
  | cons (v : PyVal) (rest : PyList) : PyList

/-- The entries of a Python dict value, in insertion order. -/
inductive PyDict where
  | nil : PyDict
  | cons (k : String) (v : PyVal) (rest : PyDict) : PyDict

end

/-- Build a `PyList` from a Lean list. -/
def PyList.ofList : List PyVal → PyList
  | [] => .nil
  | x :: xs => .cons x (PyList.ofList xs)

/-- The Lean list of elements of a `PyList`. -/
def PyList.toList : PyList → List PyVal
  | .nil => []
  | .cons x xs => x :: PyList.toList xs

/-- Build a `PyDict` from a Lean entry list. -/
def PyDict.ofList : List (String × PyVal) → PyDict
  | [] => .nil
  | (k, v) :: rest => .cons k v (PyDict.ofList rest)

/-- The Lean entry list of a `PyDict`. -/
def PyDict.toList : PyDict → List (String × PyVal)
  | .nil => []
  | .cons k v rest => (k, v) :: PyDict.toList rest

/-- A Python list literal. -/
def plist (xs : List PyVal) : PyVal :=
  .list (PyList.ofList xs)

/-- A Python dict literal. -/
def pdict (entries : List (String × PyVal)) : PyVal :=
  .dict (PyDict.ofList entries)

/-- A raised Python exception (only the kinds the embedded code can raise). -/
inductive PyExn where
  | typeError (msg : String) : PyExn
  | attributeError (msg : String) : PyExn
  | keyError (k : String) : PyExn
  | valueError (msg : String) : PyExn
deriving DecidableEq

/-- Dictionary lookup: value of the first entry with the given key
(keys are unique in every dict the embedded code builds). -/
def dget (d : PyDict) (k : String) : Option PyVal :=
  match d with
  | .nil => Option.none
  | .cons k' v rest => if k' = k then Option.some v else dget rest k

/-- `d[k] = v`: replace the value in place if the key is present
(Python dicts keep the original position), else append. -/
def dset (d : PyDict) (k : String) (v : PyVal) : PyDict :=
  match d with
  | .nil => .cons k v .nil
  | .cons k' v' rest => if k' = k then .cons k v rest else .cons k' v' (dset rest k v)

/-- `del d[k]`: drop the entries with the given key. -/
def ddel (d : PyDict) (k : String) : PyDict :=
  match d with
  | .nil => .nil
  | .cons k' v rest => if k' = k then ddel rest k else .cons k' v (ddel rest k)

/-- `v.get(k, dflt)` on a value that is a dict; non-dicts never reach this
helper in the embedded paths that use it. -/
def pyGetD (v : PyVal) (k : String) (dflt : PyVal) : PyVal :=
  match v with
  | .dict d => (dget d k).getD dflt
  | _ => dflt

/-- `v[k]` (indexing): `KeyError` when the key is missing, `TypeError` when
the value is not a dict. -/
def pyIndex (v : PyVal) (k : String) : Except PyExn PyVal :=
  match v with
  | .dict d =>
    match dget d k with
    | Option.some x => .ok x
    | Option.none => .error (.keyError k)
  | _ => .error (.typeError "value is not subscriptable")

/-- Chained `Option`-valued lookup through nested dicts, for stating facts
about records. -/
def pathGet (v : PyVal) : List String → Option PyVal
  | [] => Option.some v
  | k :: ks =>
    match v with
    | .dict d =>
      match dget d k with
      | Option.some x => pathGet x ks
      | Option.none => Option.none
    | _ => Option.none

/-- Length of the list value at a key, for stating facts about records. -/
def pyListLen : PyVal → Nat
  | .list xs => xs.toList.length
  | _ => 0

/-- `pathGet` specialised to integer leaves. -/
def pathInt (v : PyVal) (ks : List String) : Option Int :=
  match pathGet v ks with
  | Option.some (.int n) => Option.some n
  | _ => Option.none

/-- `pathGet` specialised to boolean leaves. -/
def pathBool (v : PyVal) (ks : List String) : Option Bool :=
  match pathGet v ks with
  | Option.some (.bool b) => Option.some b
  | _ => Option.none

/-- `pathGet` specialised to string leaves. -/
def pathStr (v : PyVal) (ks : List String) : Option String :=
  match pathGet v ks with
  | Option.some (.str s) => Option.some s
  | _ => Option.none

/-- Length of the list at a path, when there is one. -/
def pathLen (v : PyVal) (ks : List String) : Option Nat :=
  match pathGet v ks with
  | Option.some (.list xs) => Option.some xs.toList.length
  | _ => Option.none

/-- Python's `round` to an integer: round half to even. -/
def halfEven (q : Rat) : Int :=
  let f : Int := ⌊q⌋
  let r : Rat := q - f
  if r < 1/2 then f
  else if r > 1/2 then f + 1
  else if f % 2 = 0 then f else f + 1

/-- Python's `round(q, k)` (half to even at the k-th decimal). -/
def roundQ (k : Nat) (q : Rat) : Rat :=
  (halfEven (q * (10 ^ k : Nat)) : Rat) / ((10 ^ k : Nat) : Rat)

/-- ASCII lower-casing, as `str.lower()` does on the ASCII strings used
here. -/
def asciiLower (s : String) : String :=
  String.mk (s.data.map (fun c =>
    if 'A' ≤ c ∧ c ≤ 'Z' then Char.ofNat (c.toNat + 32) else c))

/-- ASCII upper-casing, as `str.upper()` does on the ASCII strings used
here. -/
def asciiUpper (s : String) : String :=
  String.mk (s.data.map (fun c =>
    if 'a' ≤ c ∧ c ≤ 'z' then Char.ofNat (c.toNat - 32) else c))

/-- Substring test on character lists (`pat in hay` for Python strings). -/
def hasSub (pat : List Char) : List Char → Bool
  | [] => pat.isEmpty
  | c :: rest => pat.isPrefixOf (c :: rest) || hasSub pat rest

/-- `pat in hay` for strings. -/
def strIn (pat hay : String) : Bool :=
  hasSub pat.data hay.data

/-- Pad a numeral with leading zeros up to the given width. -/
def padLeft (s : String) (n : Nat) : String :=
  String.mk (List.replicate (n - s.length) '0') ++ s

/-- Least number of decimal digits (between 1 and the fuel) that writes
`a * 10^k` as an integer; the rationals formatted here all terminate. -/
def digitsNeeded : Nat → Rat → Nat
  | 0, _ => 1
  | Nat.succ fuel, a => if (a * 10).den = 1 then 1 else (digitsNeeded fuel (a * 10)) + 1

/-- `repr` of a Python float that carries a terminating decimal value (the
only floats the embedded code serialises): minimal digits, at least one
fractional digit, as Python prints them. -/
def reprFloat (q : Rat) : String :=
  let sign := if q < 0 then "-" else ""
  let a := |q|
  if a.den = 1 then sign ++ toString a.num ++ ".0"
  else
    let k := digitsNeeded 30 a
    let mi := (⌊a * ((10 ^ k : Nat) : Rat)⌋).toNat
    let ip := mi / 10 ^ k
    let fp := mi % 10 ^ k
    sign ++ toString ip ++ "." ++ padLeft (toString fp) k

/-- `str(v)` for the values the embedded f-strings format. -/
def pyFormat : PyVal → String
  | .none => "None"
  | .bool b => if b then "True" else "False"
  | .int n => toString n
  | .float q => reprFloat q
  | .str s => s
  | .list _ => "<list>"
  | .dict _ => "<dict>"

/-- Lower-case hex digit. -/
def hexDigit (n : Nat) : Char :=
  if n < 10 then Char.ofNat (48 + n) else Char.ofNat (87 + n % 16)

/-- Four lower-case hex digits. -/
def hex4 (n : Nat) : String :=
  String.mk [hexDigit (n / 4096 % 16), hexDigit (n / 256 % 16),
             hexDigit (n / 16 % 16), hexDigit (n % 16)]

/-- One character of `json.dumps` output with `ensure_ascii` (the default):
escape the quote, the backslash, and anything outside printable ASCII. -/
def escChar (c : Char) : String :=
  if c = '"' then "\\\""
  else if c = '\\' then "\\\\"
  else if c = Char.ofNat 10 then "\\n"
  else if c = Char.ofNat 13 then "\\r"
  else if c = Char.ofNat 9 then "\\t"
  else if c = Char.ofNat 8 then "\\b"
  else if c = Char.ofNat 12 then "\\f"
  else if 32 ≤ c.toNat ∧ c.toNat ≤ 126 then String.mk [c]
  else "\\u" ++ hex4 c.toNat

/-- `json.dumps` escaping of a whole string (without the outer quotes). -/
def jsonEscape (s : String) : String :=
  String.join (s.data.map escChar)

/-- Lexicographic code-point comparison of character lists, as Python
compares strings. -/
def charListLt : List Char → List Char → Bool
  | [], [] => false
  | [], _ :: _ => true
  | _ :: _, [] => false
  | a :: as, b :: bs =>
    if a.toNat < b.toNat then true
    else if b.toNat < a.toNat then false
    else charListLt as bs

/-- `a < b` for Python strings (code-point order). -/
def strLt (a b : String) : Bool :=
  charListLt a.data b.data

/-- Insert one entry into a key-sorted dict. -/
def insertEntry (k : String) (v : PyVal) : PyDict → PyDict
  | .nil => .cons k v .nil
  | .cons k' v' t =>
    if strLt k k' then .cons k v (.cons k' v' t) else .cons k' v' (insertEntry k v t)

/-- Sort a dict by key (code-point order), as `sort_keys=True` does. -/
def sortEntries : PyDict → PyDict
  | .nil => .nil
  | .cons k v t => insertEntry k v (sortEntries t)

mutual

/-- Recursively sort every dict of a value by key; serialising the result
in order is exactly `json.dumps(v, sort_keys=True)`. -/
def sortVal : PyVal → PyVal
  | .none => .none
  | .bool b => .bool b
  | .int n => .int n
  | .float q => .float q
  | .str s => .str s
  | .list xs => .list (sortValList xs)
  | .dict d => .dict (sortEntries (sortValEntries d))

/-- `sortVal` over the elements of a list. -/
def sortValList : PyList → PyList
  | .nil => .nil
  | .cons x xs => .cons (sortVal x) (sortValList xs)

/-- `sortVal` over the values of a dict. -/
def sortValEntries : PyDict → PyDict
  | .nil => .nil
  | .cons k v rest => .cons k (sortVal v) (sortValEntries rest)

end

mutual

/-- Serialise a value whose dicts are already sorted, with the default
`json.dumps` separators (`", "` and `": "`). -/
def dumpsSorted : PyVal → String
  | .none => "null"
  | .bool b => if b then "true" else "false"
  | .int n => toString n
  | .float q => reprFloat q
  | .str s => "\"" ++ jsonEscape s ++ "\""
  | .list xs => "[" ++ dumpsItems xs ++ "]"
  | .dict d => "\x7b" ++ dumpsEntries d ++ "\x7d"

/-- Comma-joined serialisation of list items. -/
def dumpsItems : PyList → String
  | .nil => ""
  | .cons x .nil => dumpsSorted x
  | .cons x (.cons y rest) => dumpsSorted x ++ ", " ++ dumpsItems (.cons y rest)

/-- Comma-joined serialisation of dict entries. -/
def dumpsEntries : PyDict → String
  | .nil => ""
  | .cons k v .nil => "\"" ++ jsonEscape k ++ "\": " ++ dumpsSorted v
  | .cons k v (.cons k2 v2 rest) =>
    "\"" ++ jsonEscape k ++ "\": " ++ dumpsSorted v ++ ", " ++
      dumpsEntries (.cons k2 v2 rest)

end

/-- `json.dumps(v, sort_keys=True)`. -/
def dumps (v : PyVal) : String :=
  dumpsSorted (sortVal v)

/-! ### SHA-256, executable, over byte lists (`hashlib.sha256(...).hexdigest()`) -/

/-- The eight 32-bit working variables of SHA-256. -/
structure H8 where
  a : Nat
  b : Nat
  c : Nat
  d : Nat
  e : Nat
  f : Nat
  g : Nat
  h : Nat

/-- SHA-256 initial hash value (FIPS 180-4, written in decimal). -/
def initH : H8 :=
  ⟨1779033703, 3144134277, 1013904242, 2773480762,
   1359893119, 2600822924, 528734635, 1541459225⟩

/-- SHA-256 round constants (FIPS 180-4, written in decimal). -/
def K64 : List Nat :=
  [1116352408, 1899447441, 3049323471, 3921009573,
   961987163, 1508970993, 2453635748, 2870763221,
   3624381080, 310598401, 607225278, 1426881987,
   1925078388, 2162078206, 2614888103, 3248222580,
   3835390401, 4022224774, 264347078, 604807628,
   770255983, 1249150122, 1555081692, 1996064986,
   2554220882, 2821834349, 2952996808, 3210313671,
   3336571891, 3584528711, 113926993, 338241895,
   666307205, 773529912, 1294757372, 1396182291,
   1695183700, 1986661051, 2177026350, 2456956037,
   2730485921, 2820302411, 3259730800, 3345764771,
   3516065817, 3600352804, 4094571909, 275423344,
   430227734, 506948616, 659060556, 883997877,
   958139571, 1322822218, 1537002063, 1747873779,
   1955562222, 2024104815, 2227730452, 2361852424,
   2428436474, 2756734187, 3204031479, 3329325298]

/-- Rotate a 32-bit word right by `n`. -/
def rotr32 (n w : Nat) : Nat :=
  ((w >>> n) ||| (w <<< (32 - n))) % 4294967296

/-- SHA-256 small sigma 0. -/
def ssig0 (w : Nat) : Nat :=
  rotr32 7 w ^^^ rotr32 18 w ^^^ (w >>> 3)

/-- SHA-256 small sigma 1. -/
def ssig1 (w : Nat) : Nat :=
  rotr32 17 w ^^^ rotr32 19 w ^^^ (w >>> 10)

/-- SHA-256 big Sigma 0. -/
def bsig0 (w : Nat) : Nat :=
  rotr32 2 w ^^^ rotr32 13 w ^^^ rotr32 22 w

/-- SHA-256 big Sigma 1. -/
def bsig1 (w : Nat) : Nat :=
  rotr32 6 w ^^^ rotr32 11 w ^^^ rotr32 25 w

/-- One compression round with round constant and schedule word `kw`. -/
def shaStep (s : H8) (kw : Nat × Nat) : H8 :=
  let ch := (s.e &&& s.f) ^^^ ((s.e ^^^ 4294967295) &&& s.g)
  let t1 := (s.h + bsig1 s.e + ch + kw.1 + kw.2) % 4294967296
  let maj := (s.a &&& s.b) ^^^ (s.a &&& s.c) ^^^ (s.b &&& s.c)
  let t2 := (bsig0 s.a + maj) % 4294967296
  ⟨(t1 + t2) % 4294967296, s.a, s.b, s.c, (s.d + t1) % 4294967296, s.e, s.f, s.g⟩

/-- Extend the 16 block words with `fuel` more schedule words. -/
def schedAux : Nat → List Nat → List Nat
  | 0, acc => acc
  | Nat.succ fuel, acc =>
    let n := acc.length
    let wi := (ssig1 (acc.getD (n - 2) 0) + acc.getD (n - 7) 0 +
               ssig0 (acc.getD (n - 15) 0) + acc.getD (n - 16) 0) % 4294967296
    schedAux fuel (acc ++ [wi])

/-- The 64-word message schedule of one block. -/
def schedule (w16 : List Nat) : List Nat :=
  schedAux 48 w16

/-- Big-endian 32-bit words from a 64-byte block. -/
def words16 : List Nat → List Nat
  | b0 :: b1 :: b2 :: b3 :: rest =>
    (((b0 * 256 + b1) * 256 + b2) * 256 + b3) :: words16 rest
  | _ => []

/-- Compress one 64-byte block into the running hash state. -/
def compress (s : H8) (block : List Nat) : H8 :=
  let w := schedule (words16 block)
  let t := (K64.zip w).foldl shaStep s
  ⟨(s.a + t.a) % 4294967296, (s.b + t.b) % 4294967296,
   (s.c + t.c) % 4294967296, (s.d + t.d) % 4294967296,
   (s.e + t.e) % 4294967296, (s.f + t.f) % 4294967296,
   (s.g + t.g) % 4294967296, (s.h + t.h) % 4294967296⟩

/-- Eight big-endian bytes of the bit length. -/
def lenBytes (n : Nat) : List Nat :=
  [n / 72057594037927936 % 256, n / 281474976710656 % 256,
   n / 1099511627776 % 256, n / 4294967296 % 256,
   n / 16777216 % 256, n / 65536 % 256, n / 256 % 256, n % 256]

/-- SHA-256 padding: a 0x80 byte, zeros to 56 mod 64, the 64-bit length. -/
def padMsg (msg : List Nat) : List Nat :=
  let L := msg.length
  let r := (L + 1) % 64
  msg ++ [128] ++ List.replicate ((120 - r) % 64) 0 ++ lenBytes (8 * L)

/-- Split a byte list into 64-byte blocks (the fuel bounds the number of
blocks; one byte of fuel per byte always suffices). -/
def chunksAux : Nat → List Nat → List (List Nat)
  | 0, _ => []
  | Nat.succ fuel, l =>
    match l with
    | [] => []
    | x :: xs => ((x :: xs).take 64) :: chunksAux fuel ((x :: xs).drop 64)

/-- Split a byte list into 64-byte blocks. -/
def chunks64 (l : List Nat) : List (List Nat) :=
  chunksAux l.length l

/-- Eight lower-case hex digits of a 32-bit word. -/
def hexWord (w : Nat) : String :=
  String.mk [hexDigit (w / 268435456 % 16), hexDigit (w / 16777216 % 16),
             hexDigit (w / 1048576 % 16), hexDigit (w / 65536 % 16),
             hexDigit (w / 4096 % 16), hexDigit (w / 256 % 16),
             hexDigit (w / 16 % 16), hexDigit (w % 16)]

/-- SHA-256 digest of a byte list, as the lower-case hex string
`hashlib.sha256(bytes).hexdigest()` returns. -/
def sha256Hex (bytes : List Nat) : String :=
  let hh := (chunks64 (padMsg bytes)).foldl compress initH
  hexWord hh.a ++ hexWord hh.b ++ hexWord hh.c ++ hexWord hh.d ++
  hexWord hh.e ++ hexWord hh.f ++ hexWord hh.g ++ hexWord hh.h

/-- The bytes of an ASCII string (everything serialised here is ASCII,
because `json.dumps` escapes with `ensure_ascii`). -/
def asciiBytes (s : String) : List Nat :=
  s.data.map (fun c => c.toNat)

/-- `hashlib.sha256(s.encode()).hexdigest()` for the ASCII strings hashed
here. -/
def sha256HexStr (s : String) : String :=
  sha256Hex (asciiBytes s)

/-!
### `core/test_result_verifier.py` — `TestResultVerifier`

`create_immutable_test_record` is split into the phase that can raise
(reading the input report and iterating its `tests` value) and the pure
record construction, exactly mirroring the order in which the Python
statements execute.
-/

/-- The numeric reading of a Python value, when it has one (`bool` is an
`int` subtype in Python). -/
def asNum : PyVal → Option Rat
  | .int n => Option.some (n : Rat)
  | .float q => Option.some q
  | .bool b => Option.some (if b then 1 else 0)
  | _ => Option.none

/-- `v > 0`: `TypeError` for non-numeric values, as in Python 3. -/
def pyGtZero : PyVal → Except PyExn Bool
  | .int n => .ok (decide (0 < n))
  | .float q => .ok (decide (0 < q))
  | .bool b => .ok b
  | _ => .error (.typeError "'>' not supported between instances")

/-- `v == 0`: never raises; `False` for non-numeric values. -/
def pyEqZero : PyVal → Bool
  | .int n => decide (n = 0)
  | .float q => decide (q = 0)
  | .bool b => !b
  | _ => false

/-- `p / t * 100` on report counts; `TypeError` when an operand is not
numeric (true division is modelled exactly on rationals). -/
def pyDivMul100 (p t : PyVal) : Except PyExn Rat :=
  match asNum p, asNum t with
  | Option.some a, Option.some b => .ok (a / b * 100)
  | _, _ => .error (.typeError "unsupported operand type(s) for /")

/-- `for x in v`: the iterated elements, or `TypeError` for non-iterables
(iterating a string yields its characters, a dict its keys). -/
def pyIter : PyVal → Except PyExn (List PyVal)
  | .list xs => .ok xs.toList
  | .str s => .ok (s.data.map (fun c => PyVal.str (String.mk [c])))
  | .dict d => .ok (d.toList.map (fun kv => PyVal.str kv.1))
  | _ => .error (.typeError "object is not iterable")

/-- `TestResultVerifier._classify_error`: substring matching of
`str(test.get("error", ""))` against the fixed taxonomy, in source order. -/
def classifyError (test : PyVal) : String :=
  let error := pyFormat (pyGetD test "error" (.str ""))
  if strIn "AssertionError" error then "assertion_failure"
  else if strIn "ImportError" error then "import_error"
  else if strIn "TimeoutError" error then "timeout"
  else if strIn "ConnectionError" error then "connection_error"
  else "unknown_error"

/-- The `failed_tests` loop of `create_immutable_test_record`: keep the
entries whose `outcome` equals `"failed"`; `AttributeError` when an element
is not a dict (no `.get`). -/
def buildFailedTests : List PyVal → Except PyExn (List PyVal)
  | [] => .ok []
  | t :: rest =>
    match t with
    | .dict td => do
      let entry :=
        if (match dget td "outcome" with
            | Option.some (.str s) => decide (s = "failed")
            | _ => false) then
          [pdict [("name", (dget td "nodeid").getD (.str "unknown")),
                  ("error_type", .str (classifyError (.dict td))),
                  ("must_fix", .bool true)]]
        else []
      let more ← buildFailedTests rest
      pure (entry ++ more)
    | _ => .error (.attributeError "object has no attribute get")

/-- Everything `create_immutable_test_record` reads or computes from the
input report before assembling the record. -/
structure CoreData where
  total : PyVal
  passed : PyVal
  failed : PyVal
  skipped : PyVal
  failedTests : List PyVal
  rate : PyVal
  failedGt : Bool

/-- The fallible phase of `create_immutable_test_record`: `.get` reads with
defaults, the `tests` loop, the success-rate computation
`round((passed / total * 100) if total > 0 else 0, 2)` (an `int` `0` when
`total > 0` is false, as in Python), and the `failed > 0` comparison used
by the deployment statement. -/
def extractData (testResults : PyVal) : Except PyExn CoreData :=
  match testResults with
  | .dict d => do
    let total := (dget d "total").getD (.int 0)
    let passed := (dget d "passed").getD (.int 0)
    let failed := (dget d "failed").getD (.int 0)
    let skipped := (dget d "skipped").getD (.int 0)
    let items ← pyIter ((dget d "tests").getD (plist []))
    let failedTests ← buildFailedTests items
    let gt ← pyGtZero total
    let rate ← if gt then
        (do
          let q ← pyDivMul100 passed total
          pure (PyVal.float (roundQ 2 q)))
      else pure (PyVal.int 0)
    let fgt ← pyGtZero failed
    pure ⟨total, passed, failed, skipped, failedTests, rate, fgt⟩
  | _ => .error (.attributeError "object has no attribute get")

/-- The record as `create_immutable_test_record` assembles it, before the
hash is attached.  Every aggregate fact is taken from the supplied counts
(`total`, `passed`, `failed`, `skipped`), not recomputed from `tests`;
only `failed_test_details` comes from the case list. -/
def recordBase (data : CoreData) (t : String) : PyVal :=
  pdict [
    ("verification", pdict [
      ("version", .str "1.0"),
      ("timestamp", .str t),
      ("verifier", .str "TestResultVerifier")]),
    ("immutable_facts", pdict [
      ("total_test_count", data.total),
      ("passed_count", data.passed),
      ("failed_count", data.failed),
      ("skipped_count", data.skipped),
      ("exact_success_rate", data.rate),
      ("deployment_allowed", .bool (pyEqZero data.failed)),
      ("critical_failures", data.failed)]),
    ("failed_test_details", plist data.failedTests),
    ("deployment_decision", pdict [
      ("can_deploy", .bool (pyEqZero data.failed)),
      ("blocking_tests", .int data.failedTests.length),
      ("required_actions", plist (
        if data.failedTests.isEmpty then
          [.str "No actions required - all tests passing"]
        else
          data.failedTests.map (fun ft =>
            .str ("Fix " ++ pyFormat (pyGetD ft "name" .none)))))]),
    ("anti_hallucination_statements", plist [
      .str ("EXACTLY " ++ pyFormat data.failed ++ " tests are failing"),
      .str ("Success rate is EXACTLY " ++ pyFormat data.rate ++ "%"),
      .str ("Deployment is " ++ (if data.failedGt then "BLOCKED" else "ALLOWED")),
      .str "Any claim contradicting these facts is false"])]

/-- `record["verification"]["hash"] = h`. -/
def addHash (record : PyVal) (h : String) : PyVal :=
  match record with
  | .dict entries =>
    match dget entries "verification" with
    | Option.some (.dict v) =>
      .dict (dset entries "verification" (.dict (dset v "hash" (.str h))))
    | _ => record
  | _ => record

/-- Record assembly: build the record, then attach
`self._calculate_hash(record)` — computed while the record still has no
`hash` field, so the digest covers the whole record including the
`verification.timestamp`. -/
def buildRecord (data : CoreData) (t : String) : PyVal :=
  addHash (recordBase data t) (sha256HexStr (dumps (recordBase data t)))

/-- `TestResultVerifier.create_immutable_test_record`, with the
`datetime.now().isoformat()` value passed in as `now`. -/
def createImmutableTestRecord (testResults : PyVal) (now : String) : Except PyExn PyVal :=
  (extractData testResults).map (fun data => buildRecord data now)

/-- `TestResultVerifier._calculate_hash`.  `record.copy()` is a *shallow*
copy, so `del record_copy["verification"]["hash"]` removes the key from the
nested dict the caller's record also holds: the function returns both the
digest and the record as the caller sees it afterwards. -/
def calcHash (record : PyVal) : String × PyVal :=
  let mutated :=
    match record with
    | .dict entries =>
      match dget entries "verification" with
      | Option.some (.dict v) =>
        if (dget v "hash").isSome then
          .dict (dset entries "verification" (.dict (ddel v "hash")))
        else record
      | _ => record
    | _ => record
  (sha256HexStr (dumps mutated), mutated)

/-- `TestResultVerifier.verify_record`: capture the stored hash, recompute
via `_calculate_hash` (which mutates the record), compare.  Returns the
boolean and the record as it is left afterwards. -/
def verifyRecord (record : PyVal) : Bool × PyVal :=
  let stored := pyGetD (pyGetD record "verification" (pdict [])) "hash" (.str "")
  let ch := calcHash record
  ((match stored with
    | .str s => decide (s = ch.1)
    | _ => false), ch.2)

/-!
### `HallucinationDetector.check_response` (both variants)
-/

/-- One entry of a `detections` list. -/
structure Detection where
  dtype : String
  severity : String
  expected : String
  details : String
deriving DecidableEq

/-- The dict `check_response` returns in `test_result_verifier.py`. -/
structure CheckResult where
  hallucinationsDetected : Bool
  detectionCount : Nat
  detections : List Detection
  responseVerified : Bool
deriving DecidableEq

/-- The deployment-approval phrases of `test_result_verifier.py`'s
`check_response`. -/
def deployPhrases : List String :=
  ["can deploy", "ready to deploy", "deployment allowed"]

/-- The record's hash as read by `... ['verification']['hash'] not in
llm_response`: `TypeError` when the stored hash is not a string. -/
def hashAsStr : PyVal → Except PyExn String
  | .str s => .ok s
  | _ => .error (.typeError "'in <string>' requires string as left operand")

/-- `HallucinationDetector.check_response` of `test_result_verifier.py`:
the four checks in source order (exact failure count, exact rate with `%`,
approval phrase while `failed_count > 0`, hash inclusion). -/
def checkResponse (llmResponse : String) (actualRecord : PyVal) :
    Except PyExn CheckResult := do
  let facts ← pyIndex actualRecord "immutable_facts"
  let actualFailed ← pyIndex facts "failed_count"
  let actualRate ← pyIndex facts "exact_success_rate"
  let d1 :=
    if ¬ strIn (pyFormat actualFailed) llmResponse then
      [Detection.mk "missing_failure_count" "critical"
        (pyFormat actualFailed ++ " failing tests")
        "Response doesn't mention exact failure count"]
    else []
  let d2 :=
    if ¬ strIn (pyFormat actualRate ++ "%") llmResponse then
      [Detection.mk "incorrect_success_rate" "critical"
        (pyFormat actualRate ++ "%")
        "Response doesn't state exact success rate"]
    else []
  let failedGt ← pyGtZero actualFailed
  let d3 :=
    if failedGt ∧ deployPhrases.any (fun w => strIn w (asciiLower llmResponse)) then
      [Detection.mk "false_deployment_approval" "critical"
        "Deployment BLOCKED"
        "Response suggests deployment despite failures"]
    else []
  let verif ← pyIndex actualRecord "verification"
  let hashStr ← hashAsStr (← pyIndex verif "hash")
  let d4 :=
    if ¬ strIn hashStr llmResponse then
      [Detection.mk "missing_verification" "high"
        ("Hash: " ++ hashStr)
        "Response doesn't include verification hash"]
    else []
  let dets := d1 ++ d2 ++ d3 ++ d4
  pure ⟨decide (dets.length > 0), dets.length, dets, decide (dets.length = 0)⟩

/-- The dict `check_response` returns in `test_result_verifier_clean.py`,
including its `trust_score`. -/
structure CheckResultClean where
  responseVerified : Bool
  hallucinationsDetected : Bool
  detections : List Detection
  criticalIssues : List Detection
  trustScore : Rat
deriving DecidableEq

/-- `HallucinationDetector.check_response` of
`test_result_verifier_clean.py`: exact count, exact rate, expected
`BLOCKED`/`ALLOWED` word in the upper-cased response, hash inclusion;
`trust_score = 1.0 - len(detections) * 0.2` (no floor). -/
def checkResponseClean (llmResponse : String) (actualRecord : PyVal) :
    Except PyExn CheckResultClean := do
  let facts ← pyIndex actualRecord "immutable_facts"
  let actualFailed ← pyIndex facts "failed_count"
  let actualRate ← pyIndex facts "exact_success_rate"
  let d1 :=
    if ¬ strIn (pyFormat actualFailed) llmResponse then
      [Detection.mk "wrong_count" "critical"
        (pyFormat actualFailed ++ " tests failing")
        "Exact failure count not mentioned"]
    else []
  let d2 :=
    if ¬ strIn (pyFormat actualRate ++ "%") llmResponse then
      [Detection.mk "rounded_rate" "high"
        (pyFormat actualRate ++ "%")
        "Exact success rate not mentioned"]
    else []
  let failedGt ← pyGtZero actualFailed
  let expectedDeployment := if failedGt then "BLOCKED" else "ALLOWED"
  let d3 :=
    if ¬ strIn expectedDeployment (asciiUpper llmResponse) then
      [Detection.mk "wrong_deployment" "critical"
        ("Deployment is " ++ expectedDeployment)
        "Incorrect deployment decision"]
    else []
  let verif ← pyIndex actualRecord "verification"
  let hashStr ← hashAsStr (← pyIndex verif "hash")
  let d4 :=
    if ¬ strIn hashStr llmResponse then
      [Detection.mk "missing_hash" "high"
        ("Hash: " ++ hashStr)
        "Verification hash not included"]
    else []
  let dets := d1 ++ d2 ++ d3 ++ d4
  pure ⟨decide (dets.length = 0), decide (dets.length > 0), dets,
        dets.filter (fun d => d.severity = "critical"),
        1 - (dets.length : Rat) * (1 / 5)⟩

/-!
### `analyzers/comprehensive_analyzer.py` — `_calculate_scores`

The analyzer-result dictionaries are read through the fields below (the
counts are ints, the ratios floats, in every result the sub-analyzers
produce). -/

/-- The values `_calculate_scores` reads out of
`results["analyzers"]`. -/
structure AnalyzerResults where
  mockTotalTests : Nat
  mockIntegrationWithMocks : Nat
  skeletonRatio : Rat
  manipulationDetected : Bool
  rtTotalTests : Nat
  rtInstantTests : Nat
  hallucinationCount : Nat
  patternScore : Rat

/-- The `deception_factors` list of `_calculate_scores`: each factor is
appended only when its signal clears the hard-coded inclusion gate
(`> 0.3`, `> 0`, `> 0.5`, or the honeypot flag), in source order. -/
def deceptionFactors (r : AnalyzerResults) : List (String × Rat) :=
  (if r.mockTotalTests > 0 ∧
      (r.mockIntegrationWithMocks : Rat) / (r.mockTotalTests : Rat) > 3/10 then
    [("mock_abuse", (r.mockIntegrationWithMocks : Rat) / (r.mockTotalTests : Rat))]
  else []) ++
  (if r.skeletonRatio > 3/10 then [("skeleton_code", r.skeletonRatio)] else []) ++
  (if r.manipulationDetected then [("honeypot_manipulation", 1)] else []) ++
  (if r.rtTotalTests > 0 ∧
      (r.rtInstantTests : Rat) / (r.rtTotalTests : Rat) > 3/10 then
    [("instant_tests", (r.rtInstantTests : Rat) / (r.rtTotalTests : Rat))]
  else []) ++
  (if r.hallucinationCount > 0 then
    [("hallucinations", min ((r.hallucinationCount : Rat) / 10) 1)]
  else []) ++
  (if r.patternScore > 1/2 then [("deception_patterns", r.patternScore)] else [])

/-- `results["deception_score"]`: the mean of the included factors, `0`
when none is included. -/
def deceptionScore (r : AnalyzerResults) : Rat :=
  let fs := deceptionFactors r
  if fs.isEmpty then 0 else (fs.map Prod.snd).sum / (fs.length : Rat)

/-- `results["trust_score"] = max(0.0, 1.0 - deception_score)`. -/
def overallTrustScore (r : AnalyzerResults) : Rat :=
  max 0 (1 - deceptionScore r)

/-!
### `core/tracking/test_history_tracker.py` — `_analyze_flaky_tests`

The per-test analysis of one outcome window (the outcomes a test collected
over the last 20 runs): the body of the `for test_name, outcomes in
test_outcomes.items()` loop.  The stored `detected_at` wall-clock field is
omitted (no claim concerns it). -/

/-- The entry stored in `flaky_tests[test_name]`. -/
structure FlakyEntry where
  flakinessScore : Rat
  passRate : Rat
  failRate : Rat
  totalRuns : Nat
  recentPattern : String
  lastOutcome : String
deriving DecidableEq

/-- `len(set(outcomes)) > 1`. -/
def multiOutcomes : List String → Bool
  | [] => false
  | x :: xs => xs.any (fun y => y ≠ x)

/-- The loop body of `_analyze_flaky_tests` for one test's outcome window:
skip windows shorter than 3; flag flaky only when the outcomes are mixed
and contain both a `"passed"` and a `"failed"`; then
`flakiness = 1 - abs(passed - failed) / total`, stored rounded to three
decimals, with rates rounded to one decimal and the last ten outcomes
rendered as `P`/`F`/`S`. -/
def analyzeFlakyOutcomes (outcomes : List String) : Option FlakyEntry :=
  if outcomes.length < 3 then Option.none
  else if multiOutcomes outcomes ∧ outcomes.contains "passed" ∧
          outcomes.contains "failed" then
    let p := outcomes.count "passed"
    let f := outcomes.count "failed"
    let n := outcomes.length
    let flakiness : Rat := 1 - |(p : Rat) - (f : Rat)| / (n : Rat)
    Option.some
      { flakinessScore := roundQ 3 flakiness
        passRate := roundQ 1 ((p : Rat) / (n : Rat) * 100)
        failRate := roundQ 1 ((f : Rat) / (n : Rat) * 100)
        totalRuns := n
        recentPattern := String.mk ((outcomes.drop (n - 10)).map (fun o =>
          if o = "passed" then 'P' else if o = "failed" then 'F' else 'S'))
        lastOutcome := outcomes.getLastD "" }
  else Option.none

/-!
### `monitoring/hallucination_monitor.py` — `HallucinationMonitor`

State-passing embedding: the mutable `metrics` defaultdict becomes an
association list, alert callbacks become the `firedAlerts` list (one entry
per synchronous delivery round), and the per-project `.jsonl` detail file
becomes a per-project append counter. -/

/-- The severity ladder `["minor", "major", "critical"]` that
`_get_max_severity` indexes into. -/
def severityLevels : List String :=
  ["minor", "major", "critical"]

/-- The per-project counters of the `metrics` defaultdict
(`claude_deceptions` is never touched by `log_hallucination` and is
omitted). -/
structure ProjMetrics where
  totalChecks : Nat
  hallucinationsDetected : Nat
  severityBreakdown : List (String × Nat)
  commonPatterns : List (String × Nat)
deriving DecidableEq

/-- A fresh `metrics[project]` entry. -/
def emptyMetrics : ProjMetrics :=
  ⟨0, 0, [], []⟩

/-- `defaultdict(int)` increment: `m[k] += 1`. -/
def bump (m : List (String × Nat)) (k : String) : List (String × Nat) :=
  match m with
  | [] => [(k, 1)]
  | (k', n) :: rest => if k' = k then (k', n + 1) :: rest else (k', n) :: bump rest k

/-- `defaultdict(int)` read. -/
def countOf (m : List (String × Nat)) (k : String) : Nat :=
  match m with
  | [] => 0
  | (k', n) :: rest => if k' = k then n else countOf rest k

/-- The alert snapshot `_trigger_alert` builds (the wall-clock timestamp is
omitted). -/
structure Alert where
  project : String
  hallucinationCount : Nat
  totalChecks : Nat
  severityBreakdown : List (String × Nat)
  commonPatterns : List (String × Nat)
deriving DecidableEq

/-- The mutable state of a `HallucinationMonitor`. -/
structure MonitorState where
  metrics : List (String × ProjMetrics)
  enableAlerts : Bool
  alertThreshold : Nat
  firedAlerts : List Alert
  detailLogCount : List (String × Nat)
deriving DecidableEq

/-- A fresh monitor; the source constructor sets `alert_threshold = 5` and
takes `enable_alerts` as a parameter. -/
def initMonitor (enable : Bool) (threshold : Nat) : MonitorState :=
  ⟨[], enable, threshold, [], []⟩

/-- Read `self.metrics[project]` (a defaultdict: absent projects read as
fresh). -/
def lookupProj : List (String × ProjMetrics) → String → ProjMetrics
  | [], _ => emptyMetrics
  | (k, m) :: rest, p => if k = p then m else lookupProj rest p

/-- Write back `self.metrics[project]`. -/
def setProj : List (String × ProjMetrics) → String → ProjMetrics → List (String × ProjMetrics)
  | [], p, m => [(p, m)]
  | (k, m') :: rest, p, m => if k = p then (k, m) :: rest else (k, m') :: setProj rest p m

/-- `self.metrics[project]` on a monitor state. -/
def getProj (s : MonitorState) (p : String) : ProjMetrics :=
  lookupProj s.metrics p

/-- The counter updates of `log_hallucination` (lines before the severity
computation): `total_checks += 1` always; when the result flags
hallucinations, `hallucinations_detected += 1` and one severity and one
pattern bump per detection. -/
def recordDetections (m : ProjMetrics) (result : CheckResult) : ProjMetrics :=
  let m1 := { m with totalChecks := m.totalChecks + 1 }
  if result.hallucinationsDetected then
    result.detections.foldl
      (fun mm d =>
        { mm with
          severityBreakdown := bump mm.severityBreakdown d.severity
          commonPatterns := bump mm.commonPatterns d.dtype })
      { m1 with hallucinationsDetected := m1.hallucinationsDetected + 1 }
  else m1

/-- `list.index(x)`: the first index of `x`, `None` when absent (Python
raises `ValueError` there). -/
def listIndex (target : String) : List String → Option Nat
  | [] => Option.none
  | s :: rest =>
    if s = target then Option.some 0 else (listIndex target rest).map (· + 1)

/-- `_get_max_severity`'s loop: `severities.index(severity)` raises
`ValueError` for a severity outside the ladder; otherwise keep the
higher-indexed of the current maximum and the detection's severity. -/
def getMaxSeverityAux (maxSev : String) : List Detection → Except PyExn String
  | [] => .ok maxSev
  | d :: rest =>
    match listIndex d.severity severityLevels with
    | Option.none => .error (.valueError ("'" ++ d.severity ++ "' is not in list"))
    | Option.some i =>
      let j := (listIndex maxSev severityLevels).getD 0
      getMaxSeverityAux (if i > j then d.severity else maxSev) rest

/-- `HallucinationMonitor._get_max_severity`. -/
def getMaxSeverity (detections : List Detection) : Except PyExn String :=
  getMaxSeverityAux "minor" detections

/-- `HallucinationMonitor._check_alerts`: when the project's counter has
reached the threshold, snapshot an alert (before the reset), deliver it,
then reset `hallucinations_detected` to zero — the breakdowns stay. -/
def checkAlerts (s : MonitorState) (p : String) : MonitorState :=
  let m := getProj s p
  if m.hallucinationsDetected ≥ s.alertThreshold then
    let alert : Alert :=
      ⟨p, m.hallucinationsDetected, m.totalChecks, m.severityBreakdown, m.commonPatterns⟩
    { s with
      firedAlerts := s.firedAlerts ++ [alert]
      metrics := setProj s.metrics p { m with hallucinationsDetected := 0 } }
  else s

/-- `HallucinationMonitor.log_hallucination`: update the counters, compute
the maximum severity (which can raise and then aborts the rest of the
call), check alerts when enabled, append the per-project detail record.
Returns the state as left behind and the normal/exceptional outcome. -/
def logHallucination (s : MonitorState) (project : String) (result : CheckResult) :
    MonitorState × Except PyExn Unit :=
  let s1 := { s with metrics := setProj s.metrics project
                       (recordDetections (getProj s project) result) }
  match getMaxSeverity result.detections with
  | .error e => (s1, .error e)
  | .ok _ =>
    let s2 := if s1.enableAlerts then checkAlerts s1 project else s1
    let s3 := { s2 with detailLogCount := bump s2.detailLogCount project }
    (s3, .ok ())

/-- A sequence of `log_hallucination` calls for one project (the states the
monitor steps through; a raised `ValueError` would leave the same state
this fold keeps). -/
def runLog (s : MonitorState) (project : String) (calls : List CheckResult) : MonitorState :=
  calls.foldl (fun st r => (logHallucination st project r).1) s

/-- A detection result as `check_response` produces for a response with
discrepancies, with every severity on the monitor's ladder. -/
def ValidResult (r : CheckResult) : Prop :=
  r.hallucinationsDetected = true ∧ ∀ d ∈ r.detections, d.severity ∈ severityLevels

/-- The severity bumps of a call sequence, accumulated with no reset. -/
def accSeverity (calls : List CheckResult) : List (String × Nat) :=
  calls.foldl
    (fun acc r =>
      if r.hallucinationsDetected then
        r.detections.foldl (fun a d => bump a d.severity) acc
      else acc)
    []

/-- The pattern bumps of a call sequence, accumulated with no reset. -/
def accPattern (calls : List CheckResult) : List (String × Nat) :=
  calls.foldl
    (fun acc r =>
      if r.hallucinationsDetected then
        r.detections.foldl (fun a d => bump a d.dtype) acc
      else acc)
    []

/-! ### Concrete instances used by the theorems below -/

/-- A construction instant. -/
def tStamp1 : String := "2024-01-01T00:00:00"

/-- A later construction instant. -/
def tStamp2 : String := "2024-01-01T00:00:01"

/-- The empty report `{}`: every count defaults to `0`, `tests` to `[]`. -/
def emptyReport : PyVal := pdict []

/-- The record built from the empty report at `tStamp1`. -/
def builtEmpty : PyVal :=
  match createImmutableTestRecord emptyReport tStamp1 with
  | .ok r => r
  | .error _ => .none

/-- The spec's count-reconciliation input: the aggregates say
`total=3, passed=3, failed=0` while the case list holds three failing
cases. -/
def liarReport : PyVal :=
  pdict [("total", .int 3), ("passed", .int 3), ("failed", .int 0),
    ("tests", plist [
      pdict [("nodeid", .str "t1"), ("outcome", .str "failed"),
             ("error", .str "AssertionError")],
      pdict [("nodeid", .str "t2"), ("outcome", .str "failed"),
             ("error", .str "TimeoutError")],
      pdict [("nodeid", .str "t3"), ("outcome", .str "failed"),
             ("error", .str "weird")]])]

/-- A concrete binding hash `H` (64 hex digits, as SHA-256 emits). -/
def hashC4 : String :=
  "0123456789abcdef0123456789abcdef0123456789abcdef0123456789abcdef"

/-- A record with `failed_count = 5`, `exact_success_rate = 90.0` and
binding hash `hashC4` — the record of the claim-verification round trip. -/
def recFive : PyVal :=
  pdict [("immutable_facts", pdict [("failed_count", .int 5),
            ("exact_success_rate", .float 90)]),
         ("verification", pdict [("hash", .str hashC4)])]

/-- The accurate claim text about `recFive`. -/
def goodClaimText : String :=
  "5 tests are failing. Success rate is 90.0%. Deployment is BLOCKED. Hash: " ++ hashC4

/-- The hallucinated claim text about `recFive`. -/
def badClaimText : String :=
  "Most tests are passing, about 90% success, safe to deploy"

/-- Analyzer results with only the honeypot flag raised. -/
def sigsHoneypotOnly : AnalyzerResults :=
  ⟨0, 0, 0, true, 0, 0, 0, 0⟩

/-- The same results with the skeleton ratio raised from `0` to `0.4`. -/
def sigsHoneypotSkeleton : AnalyzerResults :=
  ⟨0, 0, 2/5, true, 0, 0, 0, 0⟩

/-- Ten runs alternating pass and fail: the even-split window. -/
def altOutcomes : List String :=
  ["passed", "failed", "passed", "failed", "passed", "failed",
   "passed", "failed", "passed", "failed"]

/-- Five passes then one failure. -/
def fiveOneOutcomes : List String :=
  ["passed", "passed", "passed", "passed", "passed", "failed"]

/-- Five passes, no failure. -/
def allPassOutcomes : List String :=
  ["passed", "passed", "passed", "passed", "passed"]

/-- A detection result with one critical discrepancy, as `check_response`
returns it for a response that omits the failure count. -/
def critResult : CheckResult :=
  ⟨true, 1,
   [⟨"missing_failure_count", "critical", "5 failing tests",
     "Response doesn't mention exact failure count"⟩], false⟩

/-- The detection result the bundled detector returns for `badClaimText`
against `recFive`: three discrepancies, the last with severity
`"high"` (`missing_verification`). -/
def highResult : CheckResult :=
  match checkResponse badClaimText recFive with
  | .ok r => r
  | .error _ => ⟨false, 0, [], true⟩

/-- The clean detector's result for the accurate claim against `recFive`. -/
def cleanGoodResult : CheckResultClean :=
  match checkResponseClean goodClaimText recFive with
  | .ok r => r
  | .error _ => ⟨true, false, [], [], 1⟩

/-- The clean detector's result for the hallucinated claim against
`recFive`. -/
def cleanBadResult : CheckResultClean :=
  match checkResponseClean badClaimText recFive with
  | .ok r => r
  | .error _ => ⟨true, false, [], [], 1⟩

/-- `v` is one of the Python values `for ... in v` rejects with
`TypeError`. -/
def notIterable : PyVal → Bool
  | .int _ => true
  | .float _ => true
  | .bool _ => true
  | .none => true
  | _ => false

/-- Whether a record construction ended in an escaped `TypeError`. -/
def isTypeError : Except PyExn PyVal → Bool
  | .error (.typeError _) => true
  | _ => false

/-- Decidable equality of outcomes, for evaluating the embedded calls on
concrete inputs. -/
instance {ε α : Type} [DecidableEq ε] [DecidableEq α] : DecidableEq (Except ε α) :=
  fun x y =>
    match x, y with
    | .ok a, .ok b =>
      if h : a = b then .isTrue (h ▸ rfl) else .isFalse (fun hh => h (Except.ok.inj hh))
    | .error a, .error b =>
      if h : a = b then .isTrue (h ▸ rfl) else .isFalse (fun hh => h (Except.error.inj hh))
    | .ok _, .error _ => .isFalse (fun hh => Except.noConfusion hh)
    | .error _, .ok _ => .isFalse (fun hh => Except.noConfusion hh)

/-!
## Theorems

Helper lemmas first (shared between claims), then one theorem per claim.
-/

/-- Every field `extractData` returns is pinned by the input dict: the
aggregate counts are the `.get` reads with default `0`. -/
theorem extractData_counts (d : PyDict) (data : CoreData)
    (h : extractData (.dict d) = .ok data) :
    data.total = (dget d "total").getD (.int 0) ∧
    data.passed = (dget d "passed").getD (.int 0) ∧
    data.failed = (dget d "failed").getD (.int 0) ∧
    data.skipped = (dget d "skipped").getD (.int 0) := by
  unfold extractData at h
  simp only [bind, Except.bind, pure, Except.pure] at h
  repeat' split at h
  all_goals (try cases h)
  all_goals exact ⟨rfl, rfl, rfl, rfl⟩

/-- The `failed_count` fact of a built record is the `failed` field of the
extracted data. -/
theorem pathGet_failed_count (data : CoreData) (t : String) :
    pathGet (buildRecord data t) ["immutable_facts", "failed_count"] =
      Option.some data.failed := by
  simp [buildRecord, addHash, recordBase, pdict, PyDict.ofList, plist,
        PyList.ofList, dget, dset, pathGet]

/-- The `deployment_allowed` fact of a built record is `failed == 0` on the
extracted `failed` value. -/
theorem pathGet_deployment_allowed (data : CoreData) (t : String) :
    pathGet (buildRecord data t) ["immutable_facts", "deployment_allowed"] =
      Option.some (.bool (pyEqZero data.failed)) := by
  simp [buildRecord, addHash, recordBase, pdict, PyDict.ofList, plist,
        PyList.ofList, dget, dset, pathGet]

/-- Claim C1 (counterexample).  The claim says that for the report
`{total: 3, passed: 3, failed: 0, tests: [3 failing cases]}` the record has
`facts.failed_count = 3` and `deployment_allowed = false`; the code takes
both from the supplied aggregate, so the record has `failed_count = 0` and
`deployment_allowed = true`. -/
theorem C1_counterexample :
    (createImmutableTestRecord liarReport tStamp1).map (fun r =>
      (pathInt r ["immutable_facts", "failed_count"],
       pathBool r ["immutable_facts", "deployment_allowed"])) =
      .ok (Option.some 0, Option.some true) ∧
    (Option.some (0 : Int) ≠ Option.some 3) ∧
    (Option.some true ≠ Option.some false) := by
  refine ⟨by decide, by decide, by decide⟩

/-- Claim C1 (amended).  `create_immutable_test_record` copies the
aggregate counts from the supplied report (`.get` with default `0`) rather
than recomputing them from the case list: for every input dict the record's
`facts.failed_count` is the supplied `failed` value and
`deployment_allowed` is `failed == 0` on that supplied value, whatever the
case list holds.  Only `failed_test_details` is derived from the case
list: for the lying report the record carries `failed_count = 0` and
`deployment_allowed = true` next to three failing-case detail entries. -/
theorem C1_amended :
    (∀ (d : PyDict) (t : String) (rec : PyVal),
      createImmutableTestRecord (.dict d) t = .ok rec →
      pathGet rec ["immutable_facts", "failed_count"] =
        Option.some ((dget d "failed").getD (.int 0)) ∧
      pathBool rec ["immutable_facts", "deployment_allowed"] =
        Option.some (pyEqZero ((dget d "failed").getD (.int 0)))) ∧
    (createImmutableTestRecord liarReport tStamp1).map (fun r =>
      (pathInt r ["immutable_facts", "failed_count"],
       pathBool r ["immutable_facts", "deployment_allowed"],
       pathLen r ["failed_test_details"])) =
      .ok (Option.some 0, Option.some true, Option.some 3) := by
  constructor
  · intro d t rec h
    unfold createImmutableTestRecord at h
    cases hx : extractData (.dict d) with
    | error e => rw [hx] at h; simp [Except.map] at h
    | ok data =>
      rw [hx] at h
      simp only [Except.map, Except.ok.injEq] at h
      subst h
      have hf := (extractData_counts d data hx).2.2.1
      refine ⟨?_, ?_⟩
      · rw [pathGet_failed_count, hf]
      · rw [pathBool, pathGet_deployment_allowed, hf]
  · decide

/-- Claim C4 (counterexample).  The claim says the hallucinated response
must yield a `false_deployment_approval` discrepancy; the detector's
approval-phrase list is `["can deploy", "ready to deploy",
"deployment allowed"]`, which `"safe to deploy"` matches none of, so the
three discrepancies raised contain no `false_deployment_approval`. -/
theorem C4_counterexample :
    (checkResponse badClaimText recFive).map (fun r =>
      (r.detectionCount,
       r.detections.countP (fun d => d.dtype = "false_deployment_approval"))) =
      .ok (3, 0) := by
  decide

/-- Claim C4 (amended).  Against the record with `failed_count = 5`,
`exact_success_rate = 90.0` and binding hash `hashC4`: the accurate claim
verifies with zero discrepancies; the hallucinated claim produces exactly
three discrepancies — missing failure count, missing exact rate, missing
hash — and no `false_deployment_approval`, because `"safe to deploy"` is
not among the detector's approval phrases. -/
theorem C4_amended :
    (checkResponse goodClaimText recFive).map (fun r =>
      (r.detectionCount, r.responseVerified, r.hallucinationsDetected)) =
      .ok (0, true, false) ∧
    (checkResponse badClaimText recFive).map (fun r =>
      (r.detections.map (fun d => d.dtype), r.responseVerified)) =
      .ok (["missing_failure_count", "incorrect_success_rate",
            "missing_verification"], false) := by
  refine ⟨by decide, by decide⟩

/-- Claim C9 (counterexample).  The claim says an unparseable report fails
with a typed `MalformedReport` error returned to the caller; the code
defines no such error anywhere — on `{"tests": 5}` the `for test in
test_results.get("tests", [])` loop raises an uncaught `TypeError`, which
escapes `create_immutable_test_record`. -/
theorem C9_counterexample :
    isTypeError (createImmutableTestRecord (pdict [("tests", .int 5)]) tStamp1) = true := by
  decide

/-- A window containing both a pass and a failure holds two distinct
outcomes. -/
theorem multiOutcomes_of_pass_fail {l : List String}
    (hp : "passed" ∈ l) (hf : "failed" ∈ l) : multiOutcomes l = true := by
  cases l with
  | nil => cases hp
  | cons x xs =>
    simp only [multiOutcomes, List.any_eq_true, decide_eq_true_eq]
    by_cases hx : x = "passed"
    · refine ⟨"failed", ?_, ?_⟩
      · rcases List.mem_cons.1 hf with h | h
        · subst hx; exact absurd h (by decide)
        · exact h
      · subst hx; decide
    · rcases List.mem_cons.1 hp with h | h
      · exact absurd h.symm hx
      · exact ⟨"passed", h, fun he => hx he.symm⟩

/-- Claim C7 (counterexample).  For the window `[P,P,P,P,P,F]` the stored
`flakiness_score` is `round(1 - 4/6, 3) = 0.333`, which is not equal to
the claim's exact `1 - |5 - 1|/6 = 1/3`. -/
theorem C7_counterexample :
    (analyzeFlakyOutcomes fiveOneOutcomes).map (fun e => e.flakinessScore) =
      Option.some (333/1000) ∧
    (333/1000 : Rat) ≠ 1 - |(5 : Rat) - 1| / 6 := by
  constructor
  · simp +decide [analyzeFlakyOutcomes, fiveOneOutcomes, multiOutcomes]
    norm_num [roundQ, halfEven]
  · norm_num

/-- Claim C7 (amended).  A test is flagged flaky exactly when its window
holds at least 3 outcomes including at least one pass and one failure, and
then the stored `flakiness_score` equals
`1 - |pass_count - fail_count| / window_size` *rounded to three decimals*
(the code stores `round(flakiness, 3)`).  The exact five-pass/five-fail
alternation scores `1.0`, `[P,P,P,P,P,F]` scores strictly between `0` and
`1` (namely `0.333`), and an all-pass window is never flagged. -/
theorem C7_amended :
    (∀ outcomes : List String,
      ((analyzeFlakyOutcomes outcomes).isSome ↔
        3 ≤ outcomes.length ∧ "passed" ∈ outcomes ∧ "failed" ∈ outcomes) ∧
      ∀ e, analyzeFlakyOutcomes outcomes = Option.some e →
        e.flakinessScore =
          roundQ 3 (1 - |(outcomes.count "passed" : Rat) - (outcomes.count "failed" : Rat)| /
            (outcomes.length : Rat))) ∧
    (analyzeFlakyOutcomes altOutcomes).map (fun e => e.flakinessScore) = Option.some 1 ∧
    (∃ q, (analyzeFlakyOutcomes fiveOneOutcomes).map (fun e => e.flakinessScore) =
        Option.some q ∧ 0 < q ∧ q < 1) ∧
    analyzeFlakyOutcomes allPassOutcomes = Option.none := by
  refine ⟨fun outcomes => ⟨?_, ?_⟩, ?_, ?_, ?_⟩
  · unfold analyzeFlakyOutcomes
    split_ifs with h1 h2
    · exact ⟨fun h => absurd h Bool.false_ne_true, fun h => absurd h1 (by omega)⟩
    · exact ⟨fun _ => ⟨by omega, by simpa using h2.2.1, by simpa using h2.2.2⟩,
        fun _ => rfl⟩
    · refine ⟨fun h => absurd h Bool.false_ne_true, ?_⟩
      rintro ⟨h3, hp, hf⟩
      exact absurd ⟨multiOutcomes_of_pass_fail hp hf, by simpa using hp,
        by simpa using hf⟩ h2
  · intro e he
    unfold analyzeFlakyOutcomes at he
    split_ifs at he
    cases he
    rfl
  · simp +decide [analyzeFlakyOutcomes, altOutcomes, multiOutcomes]
    norm_num [roundQ, halfEven]
  · refine ⟨333/1000, ?_, by norm_num, by norm_num⟩
    simp +decide [analyzeFlakyOutcomes, fiveOneOutcomes, multiOutcomes]
    norm_num [roundQ, halfEven]
  · simp +decide [analyzeFlakyOutcomes, allPassOutcomes, multiOutcomes]

/-- Sums respect pointwise `≤` along `Forall₂`. -/
theorem forall2_sum_le {l l' : List Rat} (h : List.Forall₂ (· ≤ ·) l l') :
    l.sum ≤ l'.sum := by
  induction h with
  | nil => exact le_refl _
  | cons hx _ ih => simpa using add_le_add hx ih

/-- The mean of the factor values is monotone when the factor lists match
up pointwise. -/
theorem score_mono {r r' : AnalyzerResults}
    (h : List.Forall₂ (· ≤ ·) ((deceptionFactors r).map Prod.snd)
      ((deceptionFactors r').map Prod.snd))
    (hne : deceptionFactors r ≠ []) :
    deceptionScore r ≤ deceptionScore r' := by
  have hlen : (deceptionFactors r).length = (deceptionFactors r').length := by
    have := h.length_eq
    simpa using this
  have hne' : deceptionFactors r' ≠ [] := by
    intro h0
    rw [h0] at hlen
    exact hne (List.length_eq_zero.1 (by simpa using hlen))
  unfold deceptionScore
  rw [if_neg (by simpa [List.isEmpty_iff] using hne),
      if_neg (by simpa [List.isEmpty_iff] using hne')]
  rw [← hlen]
  have hpos : (0 : Rat) < ((deceptionFactors r).length : Rat) := by
    have := List.length_pos.2 hne
    exact_mod_cast this
  exact (div_le_div_iff_of_pos_right hpos).2 (forall2_sum_le h)

/-- Claim C6 (counterexample).  With only the honeypot factor present the
score is `1.0`; raising the skeleton ratio from `0` to `0.4` (a single
signal increase, all else fixed) adds a `0.4` factor and drags the mean
down to `0.7` — the aggregation is not monotone in each signal. -/
theorem C6_counterexample :
    sigsHoneypotOnly.skeletonRatio ≤ sigsHoneypotSkeleton.skeletonRatio ∧
    sigsHoneypotSkeleton = { sigsHoneypotOnly with skeletonRatio := 2/5 } ∧
    deceptionScore sigsHoneypotOnly = 1 ∧
    deceptionScore sigsHoneypotSkeleton = 7/10 ∧
    deceptionScore sigsHoneypotSkeleton < deceptionScore sigsHoneypotOnly := by
  have ha : deceptionScore sigsHoneypotOnly = 1 := by
    norm_num [deceptionScore, deceptionFactors, sigsHoneypotOnly]
  have hb : deceptionScore sigsHoneypotSkeleton = 7/10 := by
    norm_num [deceptionScore, deceptionFactors, sigsHoneypotSkeleton]
  refine ⟨by norm_num [sigsHoneypotOnly, sigsHoneypotSkeleton], rfl, ha, hb, ?_⟩
  rw [ha, hb]
  norm_num

/-- A hex word prints as eight characters. -/
theorem hexWord_length (w : Nat) : (hexWord w).length = 8 := rfl

/-- A SHA-256 hex digest is 64 characters long. -/
theorem sha256HexStr_length (s : String) : (sha256HexStr s).length = 64 := by
  simp [sha256HexStr, sha256Hex, String.length_append, hexWord_length]

/-- A SHA-256 hex digest is never the empty string. -/
theorem sha_ne_empty (s : String) : sha256HexStr s ≠ "" := by
  intro h
  have h2 := sha256HexStr_length s
  rw [h] at h2
  simp at h2

/-- The heart of the hash discipline, and of the shallow-copy bug.  A
freshly built record verifies (the stored hash is the digest of exactly
the serialization `verify_record` recomputes) — but `_calculate_hash`'s
shallow copy deletes the `hash` key from the record's own `verification`
dict, so the verified record is handed back stripped of its hash, and a
second verification compares the now-empty stored hash against a 64-char
digest and fails. -/
theorem verify_buildRecord (d : CoreData) (t : String) :
    verifyRecord (buildRecord d t) = (true, recordBase d t) ∧
    verifyRecord (recordBase d t) = (false, recordBase d t) := by
  constructor
  · simp [verifyRecord, calcHash, buildRecord, addHash, recordBase, pdict,
      PyDict.ofList, plist, PyList.ofList, dget, dset, ddel, pyGetD]
  · simp [verifyRecord, calcHash, recordBase, pdict, PyDict.ofList, plist,
      PyList.ofList, dget, dset, ddel, pyGetD]
    exact fun h => sha_ne_empty _ h.symm

set_option maxRecDepth 1000000 in
set_option maxHeartbeats 4000000 in
/-- Claim C2 (counterexample).  Building a record from the same (empty)
report twice is claimed to yield the identical `binding_hash`; but the
hashed serialization includes `verification.timestamp`
(`datetime.now()`), so two builds one second apart produce different
hashes.  The two digests are the exact SHA-256 values the Python code
computes for these inputs. -/
theorem C2_counterexample :
    (createImmutableTestRecord emptyReport tStamp1).map
      (fun r => pathStr r ["verification", "hash"]) =
      .ok (Option.some
        "faee5846efce163238122af101ae31e362fd682d308aa22200414a2bb160b2ce") ∧
    (createImmutableTestRecord emptyReport tStamp2).map
      (fun r => pathStr r ["verification", "hash"]) =
      .ok (Option.some
        "8a0a9cc881e92513db70bc3a8cb21976f01fccf1399fbce3add853a31a69320d") ∧
    ("faee5846efce163238122af101ae31e362fd682d308aa22200414a2bb160b2ce" : String) ≠
      "8a0a9cc881e92513db70bc3a8cb21976f01fccf1399fbce3add853a31a69320d" := by
  refine ⟨by decide, by decide, by decide⟩

/-- Claim C2 (amended).  Record construction is deterministic given the
report *and* the construction instant: the stored `binding_hash` is the
digest of the record's canonical serialization, so recomputing it from the
same record always reproduces the stored value — every freshly built
record passes `verify_record`.  (Building the same report at different
instants yields different hashes, because the `verification.timestamp` is
part of the hashed serialization; see the counterexample.) -/
theorem C2_amended :
    (∀ (report : PyVal) (t : String) (rec : PyVal),
      createImmutableTestRecord report t = .ok rec →
      (verifyRecord rec).1 = true) ∧
    (verifyRecord builtEmpty).1 = true := by
  have main : ∀ (report : PyVal) (t : String) (rec : PyVal),
      createImmutableTestRecord report t = .ok rec → (verifyRecord rec).1 = true := by
    intro report t rec h
    unfold createImmutableTestRecord at h
    cases hx : extractData report with
    | error e => rw [hx] at h; simp [Except.map] at h
    | ok data =>
      rw [hx] at h
      simp only [Except.map, Except.ok.injEq] at h
      subst h
      rw [(verify_buildRecord data t).1]
  exact ⟨main, main emptyReport tStamp1 builtEmpty rfl⟩

/-- Claim C3 (code bug).  `verify_record` is not side-effect free: its
`_calculate_hash` copies the record *shallowly* and then deletes
`verification["hash"]` from the shared nested dict.  On the record built
from the empty report: the hash is present, the first verification
returns `True` but strips the hash from the input record, and a second
verification of the same untampered record returns `False`.  (The clean
variant deep-copies via a JSON round trip, showing the intended
semantics.) -/
theorem C3_theorem :
    (pathStr builtEmpty ["verification", "hash"]).isSome = true ∧
    (verifyRecord builtEmpty).1 = true ∧
    pathStr (verifyRecord builtEmpty).2 ["verification", "hash"] = Option.none ∧
    (verifyRecord ((verifyRecord builtEmpty).2)).1 = false := by
  obtain ⟨data, hdata⟩ : ∃ data, extractData emptyReport = .ok data := ⟨_, rfl⟩
  have hbuilt : builtEmpty = buildRecord data tStamp1 := by
    unfold builtEmpty createImmutableTestRecord
    rw [hdata]
    simp [Except.map]
  have h1 := (verify_buildRecord data tStamp1).1
  have h2 := (verify_buildRecord data tStamp1).2
  rw [hbuilt, h1, h2]
  refine ⟨?_, rfl, ?_, rfl⟩
  · simp [buildRecord, addHash, recordBase, pdict, PyDict.ofList, plist,
      PyList.ofList, dget, dset, pathStr, pathGet]
  · simp [recordBase, pdict, PyDict.ofList, plist, PyList.ofList, dget,
      pathStr, pathGet]

/-- The clean detector's result shape: `trust_score` is a flat 20% per
discrepancy, `response_verified` is `len == 0`. -/
theorem clean_trust_spec (resp : String) (record : PyVal) (res : CheckResultClean)
    (h : checkResponseClean resp record = .ok res) :
    res.trustScore = max 0 (1 - (res.detections.length : Rat) * (1/5)) ∧
    (res.responseVerified = true ↔ res.detections.length = 0) := by
  unfold checkResponseClean at h
  simp only [bind, Except.bind, pure, Except.pure] at h
  repeat' split at h
  all_goals (try cases h)
  all_goals refine ⟨?_, by simp⟩
  all_goals simp only [CheckResultClean.trustScore, CheckResultClean.detections]
  all_goals rw [eq_comm, max_eq_right (by norm_num [List.length_append])]

/-- Claim C5 (confirmed).  For every claim/record pair the clean
detector's result satisfies `trust_score = max(0, 1 - 0.2 ×
discrepancy_count)` and `verified ↔ discrepancy_count = 0`.  (The code
computes `1.0 - 0.2·n` with no explicit floor, but at most four checks can
fire, so the floor is never reached and the two expressions agree.)  The
closed conjuncts instantiate both sides of the round trip. -/
theorem C5_theorem :
    (∀ (resp : String) (record : PyVal) (res : CheckResultClean),
      checkResponseClean resp record = .ok res →
      res.trustScore = max 0 (1 - (res.detections.length : Rat) * (1/5)) ∧
      (res.responseVerified = true ↔ res.detections.length = 0)) ∧
    (cleanGoodResult.detections.length = 0 ∧ cleanGoodResult.responseVerified = true ∧
      cleanGoodResult.trustScore = 1) ∧
    (cleanBadResult.detections.length = 4 ∧ cleanBadResult.responseVerified = false ∧
      cleanBadResult.trustScore = 1/5) := by
  refine ⟨clean_trust_spec, ⟨by decide, by decide, ?_⟩, ⟨by decide, by decide, ?_⟩⟩
  · have h := (clean_trust_spec goodClaimText recFive cleanGoodResult rfl).1
    have hlen : cleanGoodResult.detections.length = 0 := by decide
    rw [h, hlen]
    norm_num
  · have h := (clean_trust_spec badClaimText recFive cleanBadResult rfl).1
    have hlen : cleanBadResult.detections.length = 4 := by decide
    rw [h, hlen]
    norm_num

/-- Pointwise reflexivity of `≤` along a list. -/
theorem forall2_refl_le (l : List Rat) : List.Forall₂ (· ≤ ·) l l :=
  List.forall₂_same.2 (fun a _ => le_refl a)

/-- Monotonicity in the mock-abuse signal while it is already included. -/
theorem mono_mock (r : AnalyzerResults) (w : Nat)
    (hle : r.mockIntegrationWithMocks ≤ w) (hpos : r.mockTotalTests > 0)
    (hgt : (r.mockIntegrationWithMocks : Rat) / (r.mockTotalTests : Rat) > 3/10) :
    deceptionScore r ≤ deceptionScore { r with mockIntegrationWithMocks := w } := by
  have hcpos : (0 : Rat) < (r.mockTotalTests : Rat) := by exact_mod_cast hpos
  have hdiv : (r.mockIntegrationWithMocks : Rat) / (r.mockTotalTests : Rat) ≤
      (w : Rat) / (r.mockTotalTests : Rat) :=
    (div_le_div_iff_of_pos_right hcpos).2 (by exact_mod_cast hle)
  have hgt' : (w : Rat) / (r.mockTotalTests : Rat) > 3/10 := lt_of_lt_of_le hgt hdiv
  apply score_mono
  · simp only [deceptionFactors, if_pos (And.intro hpos hgt),
      if_pos (And.intro hpos hgt'), List.map_append]
    refine List.rel_append (List.rel_append (List.rel_append (List.rel_append
      (List.rel_append ?_ (forall2_refl_le _)) (forall2_refl_le _)) (forall2_refl_le _))
      (forall2_refl_le _)) (forall2_refl_le _)
    exact List.Forall₂.cons hdiv List.Forall₂.nil
  · simp only [deceptionFactors, if_pos (And.intro hpos hgt)]
    intro h0
    have := congrArg List.length h0
    simp [List.length_append] at this

/-- Monotonicity in the skeleton-code signal while it is already
included. -/
theorem mono_skeleton (r : AnalyzerResults) (x : Rat)
    (hle : r.skeletonRatio ≤ x) (hgt : r.skeletonRatio > 3/10) :
    deceptionScore r ≤ deceptionScore { r with skeletonRatio := x } := by
  have hgt' : x > 3/10 := lt_of_lt_of_le hgt hle
  apply score_mono
  · simp only [deceptionFactors, if_pos hgt, if_pos hgt', List.map_append]
    refine List.rel_append (List.rel_append (List.rel_append (List.rel_append
      (List.rel_append (forall2_refl_le _) ?_) (forall2_refl_le _)) (forall2_refl_le _))
      (forall2_refl_le _)) (forall2_refl_le _)
    exact List.Forall₂.cons hle List.Forall₂.nil
  · simp only [deceptionFactors, if_pos hgt]
    intro h0
    have := congrArg List.length h0
    simp [List.length_append] at this

/-- Monotonicity in the instant-test signal while it is already
included. -/
theorem mono_instant (r : AnalyzerResults) (w : Nat)
    (hle : r.rtInstantTests ≤ w) (hpos : r.rtTotalTests > 0)
    (hgt : (r.rtInstantTests : Rat) / (r.rtTotalTests : Rat) > 3/10) :
    deceptionScore r ≤ deceptionScore { r with rtInstantTests := w } := by
  have hcpos : (0 : Rat) < (r.rtTotalTests : Rat) := by exact_mod_cast hpos
  have hdiv : (r.rtInstantTests : Rat) / (r.rtTotalTests : Rat) ≤
      (w : Rat) / (r.rtTotalTests : Rat) :=
    (div_le_div_iff_of_pos_right hcpos).2 (by exact_mod_cast hle)
  have hgt' : (w : Rat) / (r.rtTotalTests : Rat) > 3/10 := lt_of_lt_of_le hgt hdiv
  apply score_mono
  · simp only [deceptionFactors, if_pos (And.intro hpos hgt),
      if_pos (And.intro hpos hgt'), List.map_append]
    refine List.rel_append (List.rel_append (List.rel_append (List.rel_append
      (List.rel_append (forall2_refl_le _) (forall2_refl_le _)) (forall2_refl_le _)) ?_)
      (forall2_refl_le _)) (forall2_refl_le _)
    exact List.Forall₂.cons hdiv List.Forall₂.nil
  · simp only [deceptionFactors, if_pos (And.intro hpos hgt)]
    intro h0
    have := congrArg List.length h0
    simp [List.length_append] at this

/-- Monotonicity in the hallucination count while it is already
included. -/
theorem mono_hall (r : AnalyzerResults) (c : Nat)
    (hle : r.hallucinationCount ≤ c) (hpos : r.hallucinationCount > 0) :
    deceptionScore r ≤ deceptionScore { r with hallucinationCount := c } := by
  have hpos' : c > 0 := lt_of_lt_of_le hpos hle
  have hdiv : min ((r.hallucinationCount : Rat) / 10) 1 ≤ min ((c : Rat) / 10) 1 := by
    refine min_le_min ?_ le_rfl
    refine (div_le_div_iff_of_pos_right (by norm_num)).2 ?_
    exact_mod_cast hle
  apply score_mono
  · simp only [deceptionFactors, if_pos hpos, if_pos hpos', List.map_append]
    refine List.rel_append (List.rel_append (List.rel_append (List.rel_append
      (List.rel_append (forall2_refl_le _) (forall2_refl_le _)) (forall2_refl_le _))
      (forall2_refl_le _)) ?_) (forall2_refl_le _)
    exact List.Forall₂.cons hdiv List.Forall₂.nil
  · simp only [deceptionFactors, if_pos hpos]
    intro h0
    have := congrArg List.length h0
    simp [List.length_append] at this

/-- Monotonicity in the pattern-analysis score while it is already
included. -/
theorem mono_pattern (r : AnalyzerResults) (x : Rat)
    (hle : r.patternScore ≤ x) (hgt : r.patternScore > 1/2) :
    deceptionScore r ≤ deceptionScore { r with patternScore := x } := by
  have hgt' : x > 1/2 := lt_of_lt_of_le hgt hle
  apply score_mono
  · simp only [deceptionFactors, if_pos hgt, if_pos hgt', List.map_append]
    refine List.rel_append (List.rel_append (List.rel_append (List.rel_append
      (List.rel_append (forall2_refl_le _) (forall2_refl_le _)) (forall2_refl_le _))
      (forall2_refl_le _)) (forall2_refl_le _)) ?_
    exact List.Forall₂.cons hle List.Forall₂.nil
  · simp only [deceptionFactors, if_pos hgt]
    intro h0
    have := congrArg List.length h0
    simp [List.length_append] at this

/-- Claim C6 (amended).  Increasing a single signal while holding the
others fixed never decreases `overall_deception_score` *provided the
signal already contributes a deception factor before the increase* (its
value already clears the inclusion gate); in general an increase that
newly pushes a signal over its gate can lower the mean of the included
factors, as the counterexample shows.  The last conjunct instantiates the
skeleton case concretely. -/
theorem C6_amended :
    (∀ (r : AnalyzerResults) (w : Nat),
      r.mockIntegrationWithMocks ≤ w → r.mockTotalTests > 0 →
      (r.mockIntegrationWithMocks : Rat) / (r.mockTotalTests : Rat) > 3/10 →
      deceptionScore r ≤ deceptionScore { r with mockIntegrationWithMocks := w }) ∧
    (∀ (r : AnalyzerResults) (x : Rat),
      r.skeletonRatio ≤ x → r.skeletonRatio > 3/10 →
      deceptionScore r ≤ deceptionScore { r with skeletonRatio := x }) ∧
    (∀ (r : AnalyzerResults) (w : Nat),
      r.rtInstantTests ≤ w → r.rtTotalTests > 0 →
      (r.rtInstantTests : Rat) / (r.rtTotalTests : Rat) > 3/10 →
      deceptionScore r ≤ deceptionScore { r with rtInstantTests := w }) ∧
    (∀ (r : AnalyzerResults) (c : Nat),
      r.hallucinationCount ≤ c → r.hallucinationCount > 0 →
      deceptionScore r ≤ deceptionScore { r with hallucinationCount := c }) ∧
    (∀ (r : AnalyzerResults) (x : Rat),
      r.patternScore ≤ x → r.patternScore > 1/2 →
      deceptionScore r ≤ deceptionScore { r with patternScore := x }) ∧
    deceptionScore sigsHoneypotSkeleton ≤
      deceptionScore { sigsHoneypotSkeleton with skeletonRatio := 3/5 } := by
  refine ⟨mono_mock, mono_skeleton, mono_instant, mono_hall, mono_pattern, ?_⟩
  have ha : deceptionScore sigsHoneypotSkeleton = 7/10 := by
    norm_num [deceptionScore, deceptionFactors, sigsHoneypotSkeleton]
  have hb : deceptionScore { sigsHoneypotSkeleton with skeletonRatio := 3/5 } = 4/5 := by
    norm_num [deceptionScore, deceptionFactors, sigsHoneypotSkeleton]
  rw [ha, hb]
  norm_num

/-- Claim C9 (amended).  `create_immutable_test_record` validates nothing:
missing fields silently default, and for every report whose `tests` value
is a non-iterable (int, float, bool or None) the call raises an uncaught
`TypeError` — there is no `MalformedReport` typed result in the code. -/
theorem C9_amended :
    (∀ (d : PyDict) (t : String) (v : PyVal),
      dget d "tests" = Option.some v → notIterable v = true →
      isTypeError (createImmutableTestRecord (.dict d) t) = true) ∧
    isTypeError (createImmutableTestRecord (pdict [("tests", .int 5)]) tStamp1) = true := by
  constructor
  · intro d t v hv hni
    cases v <;>
      simp_all [createImmutableTestRecord, extractData, notIterable, pyIter,
        bind, Except.bind, isTypeError, Except.map]
  · decide


/-- Reading back the project entry just written. -/
theorem lookup_set (ms : List (String × ProjMetrics)) (p : String) (m : ProjMetrics) :
    lookupProj (setProj ms p m) p = m := by
  induction ms with
  | nil => simp [setProj, lookupProj]
  | cons kv rest ih =>
    obtain ⟨k, m'⟩ := kv
    by_cases h : k = p <;> simp [setProj, lookupProj, h, ih]

/-- Writing a project entry twice keeps the last value. -/
theorem set_set (ms : List (String × ProjMetrics)) (p : String) (a b : ProjMetrics) :
    setProj (setProj ms p a) p b = setProj ms p b := by
  induction ms with
  | nil => simp [setProj]
  | cons kv rest ih =>
    obtain ⟨k, m'⟩ := kv
    by_cases h : k = p <;> simp [setProj, h, ih]

/-- `list.index` finds nothing exactly for absent elements. -/
theorem listIndex_none_iff (a : String) (l : List String) :
    listIndex a l = Option.none ↔ a ∉ l := by
  induction l with
  | nil => simp [listIndex]
  | cons x rest ih =>
    rw [listIndex]
    by_cases h : x = a
    · subst h
      simp
    · rw [if_neg h, Option.map_eq_none', ih]
      constructor
      · intro hn hmem
        rcases List.mem_cons.1 hmem with rfl | hm
        · exact h rfl
        · exact hn hm
      · exact fun hn hm => hn (List.mem_cons_of_mem _ hm)

/-- The severity maximum computes normally when every severity is on
the ladder. -/
theorem getMaxAux_ok (l : List Detection) :
    ∀ m : String, m ∈ severityLevels → (∀ d ∈ l, d.severity ∈ severityLevels) →
    ∃ v, getMaxSeverityAux m l = .ok v := by
  induction l with
  | nil => exact fun m _ _ => ⟨m, rfl⟩
  | cons d rest ih =>
    intro m hm h
    have hd := h d (by simp)
    have hrest : ∀ x ∈ rest, x.severity ∈ severityLevels :=
      fun x hx => h x (List.mem_cons_of_mem _ hx)
    have hidx : ∃ i, listIndex d.severity severityLevels = Option.some i := by
      rcases (by simpa [severityLevels] using hd :
          d.severity = "minor" ∨ d.severity = "major" ∨ d.severity = "critical") with
        h1 | h1 | h1
      · exact ⟨0, by rw [h1]; rfl⟩
      · exact ⟨1, by rw [h1]; rfl⟩
      · exact ⟨2, by rw [h1]; rfl⟩
    obtain ⟨i, hi⟩ := hidx
    unfold getMaxSeverityAux
    rw [hi]
    apply ih
    · split
      · exact hd
      · exact hm
    · exact hrest

/-- The severity maximum raises `ValueError` whenever some detection
carries a severity outside the ladder. -/
theorem getMaxAux_err (l : List Detection) :
    ∀ m : String, (∃ d ∈ l, d.severity ∉ severityLevels) →
    ∃ e, getMaxSeverityAux m l = .error e := by
  induction l with
  | nil =>
    rintro m ⟨d, hd, _⟩
    cases hd
  | cons d rest ih =>
    rintro m ⟨x, hx, hxs⟩
    unfold getMaxSeverityAux
    rcases List.mem_cons.1 hx with rfl | hx'
    · rw [(listIndex_none_iff _ _).2 hxs]
      exact ⟨_, rfl⟩
    · cases hn : listIndex d.severity severityLevels with
      | none => exact ⟨_, rfl⟩
      | some i => exact ih _ ⟨x, hx', hxs⟩

/-- The per-detection breakdown loop leaves the two counters alone and
folds each breakdown independently. -/
theorem foldBump_fields (l : List Detection) :
    ∀ m : ProjMetrics,
    (l.foldl (fun mm d =>
      { mm with severityBreakdown := bump mm.severityBreakdown d.severity,
                commonPatterns := bump mm.commonPatterns d.dtype }) m).totalChecks =
        m.totalChecks ∧
    (l.foldl (fun mm d =>
      { mm with severityBreakdown := bump mm.severityBreakdown d.severity,
                commonPatterns := bump mm.commonPatterns d.dtype }) m).hallucinationsDetected =
        m.hallucinationsDetected ∧
    (l.foldl (fun mm d =>
      { mm with severityBreakdown := bump mm.severityBreakdown d.severity,
                commonPatterns := bump mm.commonPatterns d.dtype }) m).severityBreakdown =
        l.foldl (fun a d => bump a d.severity) m.severityBreakdown ∧
    (l.foldl (fun mm d =>
      { mm with severityBreakdown := bump mm.severityBreakdown d.severity,
                commonPatterns := bump mm.commonPatterns d.dtype }) m).commonPatterns =
        l.foldl (fun a d => bump a d.dtype) m.commonPatterns := by
  induction l with
  | nil => exact fun m => ⟨rfl, rfl, rfl, rfl⟩
  | cons d rest ih => exact fun m => ih _

/-- One counter update for a result that flags hallucinations: both
counters gain one, the breakdowns fold over the detections. -/
theorem recordDetections_fields (m : ProjMetrics) (r : CheckResult)
    (hr : r.hallucinationsDetected = true) :
    (recordDetections m r).totalChecks = m.totalChecks + 1 ∧
    (recordDetections m r).hallucinationsDetected = m.hallucinationsDetected + 1 ∧
    (recordDetections m r).severityBreakdown =
      r.detections.foldl (fun a d => bump a d.severity) m.severityBreakdown ∧
    (recordDetections m r).commonPatterns =
      r.detections.foldl (fun a d => bump a d.dtype) m.commonPatterns := by
  unfold recordDetections
  rw [hr]
  simp only [if_true]
  exact foldBump_fields r.detections _

/-- One `log_hallucination` call that stays below the threshold: counters
update, no alert fires, one detail append. -/
theorem log_step_nofire (s : MonitorState) (p : String) (r : CheckResult)
    (hr : ValidResult r) (he : s.enableAlerts = true)
    (hlt : (recordDetections (getProj s p) r).hallucinationsDetected < s.alertThreshold) :
    logHallucination s p r =
      ({ s with metrics := setProj s.metrics p (recordDetections (getProj s p) r),
                detailLogCount := bump s.detailLogCount p }, .ok ()) := by
  obtain ⟨v, hv⟩ := getMaxAux_ok r.detections "minor" (by decide) hr.2
  have hlt' : ¬ ((recordDetections (lookupProj s.metrics p) r).hallucinationsDetected ≥
      s.alertThreshold) := not_le.2 hlt
  unfold logHallucination getMaxSeverity
  rw [hv]
  unfold checkAlerts
  simp only [he, if_true, getProj, lookup_set]
  rw [if_neg hlt']

/-- One `log_hallucination` call that reaches the threshold: the alert
snapshot is taken before the counter reset, the breakdowns survive. -/
theorem log_step_fire (s : MonitorState) (p : String) (r : CheckResult)
    (hr : ValidResult r) (he : s.enableAlerts = true)
    (hge : (recordDetections (getProj s p) r).hallucinationsDetected ≥ s.alertThreshold) :
    logHallucination s p r =
      ({ s with
          metrics := setProj s.metrics p
            { recordDetections (getProj s p) r with hallucinationsDetected := 0 },
          firedAlerts := s.firedAlerts ++
            [⟨p, (recordDetections (getProj s p) r).hallucinationsDetected,
              (recordDetections (getProj s p) r).totalChecks,
              (recordDetections (getProj s p) r).severityBreakdown,
              (recordDetections (getProj s p) r).commonPatterns⟩],
          detailLogCount := bump s.detailLogCount p }, .ok ()) := by
  obtain ⟨v, hv⟩ := getMaxAux_ok r.detections "minor" (by decide) hr.2
  have hge' : (recordDetections (lookupProj s.metrics p) r).hallucinationsDetected ≥
      s.alertThreshold := hge
  unfold logHallucination getMaxSeverity
  rw [hv]
  unfold checkAlerts
  simp only [he, if_true, getProj, lookup_set]
  rw [if_pos hge']
  simp [set_set]

/-- A run of valid detections that never reaches the threshold: no alert
fires and the project metrics are the plain fold of the counter
updates. -/
theorem runLog_below (p : String) (calls : List CheckResult) :
    ∀ s : MonitorState, (∀ r ∈ calls, ValidResult r) → s.enableAlerts = true →
    (getProj s p).hallucinationsDetected + calls.length < s.alertThreshold →
    (runLog s p calls).firedAlerts = s.firedAlerts ∧
    (runLog s p calls).enableAlerts = true ∧
    (runLog s p calls).alertThreshold = s.alertThreshold ∧
    getProj (runLog s p calls) p = calls.foldl recordDetections (getProj s p) := by
  induction calls with
  | nil => exact fun s _ he _ => ⟨rfl, he, rfl, rfl⟩
  | cons r rest ih =>
    intro s hval he hlt
    have hr := hval r (by simp)
    have hcount := (recordDetections_fields (getProj s p) r hr.1).2.1
    have hlt1 : (recordDetections (getProj s p) r).hallucinationsDetected < s.alertThreshold := by
      rw [hcount]
      simp only [List.length_cons] at hlt
      omega
    have hstep := log_step_nofire s p r hr he hlt1
    have hrun : runLog s p (r :: rest) = runLog (logHallucination s p r).1 p rest := by
      simp [runLog]
    rw [hrun, hstep]
    have hproj : getProj ({ s with
        metrics := setProj s.metrics p (recordDetections (getProj s p) r),
        detailLogCount := bump s.detailLogCount p }) p =
        recordDetections (getProj s p) r := by
      simp [getProj, lookup_set]
    have hih := ih ({ s with
        metrics := setProj s.metrics p (recordDetections (getProj s p) r),
        detailLogCount := bump s.detailLogCount p })
      (fun x hx => hval x (List.mem_cons_of_mem _ hx)) he
      (show (getProj ({ s with
          metrics := setProj s.metrics p (recordDetections (getProj s p) r),
          detailLogCount := bump s.detailLogCount p }) p).hallucinationsDetected +
          rest.length < s.alertThreshold by
        rw [hproj, hcount]
        simp only [List.length_cons] at hlt
        omega)
    refine ⟨hih.1, hih.2.1, hih.2.2.1, ?_⟩
    rw [hih.2.2.2, hproj]
    rfl

/-- Counter and breakdown values after folding valid detections. -/
theorem fold_record_fields (calls : List CheckResult) :
    ∀ m : ProjMetrics, (∀ r ∈ calls, ValidResult r) →
    (calls.foldl recordDetections m).hallucinationsDetected =
      m.hallucinationsDetected + calls.length ∧
    (calls.foldl recordDetections m).totalChecks = m.totalChecks + calls.length ∧
    (calls.foldl recordDetections m).severityBreakdown =
      calls.foldl (fun acc r => r.detections.foldl (fun a d => bump a d.severity) acc)
        m.severityBreakdown ∧
    (calls.foldl recordDetections m).commonPatterns =
      calls.foldl (fun acc r => r.detections.foldl (fun a d => bump a d.dtype) acc)
        m.commonPatterns := by
  induction calls with
  | nil => exact fun m _ => ⟨rfl, rfl, rfl, rfl⟩
  | cons r rest ih =>
    intro m hval
    have hr := hval r (by simp)
    have hf := recordDetections_fields m r hr.1
    have hih := ih (recordDetections m r) (fun x hx => hval x (List.mem_cons_of_mem _ hx))
    simp only [List.foldl_cons, List.length_cons]
    refine ⟨?_, ?_, ?_, ?_⟩
    · rw [hih.1, hf.2.1]; omega
    · rw [hih.2.1, hf.1]; omega
    · rw [hih.2.2.1, hf.2.2.1]
    · rw [hih.2.2.2, hf.2.2.2]

/-- For valid results the guarded accumulation drops its guard. -/
theorem fold_if_valid (f : List (String × Nat) → Detection → List (String × Nat)) :
    ∀ (calls : List CheckResult) (acc : List (String × Nat)),
    (∀ r ∈ calls, ValidResult r) →
    calls.foldl (fun acc r => if r.hallucinationsDetected then
      r.detections.foldl f acc else acc) acc =
    calls.foldl (fun acc r => r.detections.foldl f acc) acc := by
  intro calls
  induction calls with
  | nil => exact fun acc _ => rfl
  | cons r rest ih =>
    intro acc hval
    simp only [List.foldl_cons, (hval r (by simp)).1, if_true]
    exact ih _ (fun x hx => hval x (List.mem_cons_of_mem _ hx))

/-- The severity accumulation of valid calls, as a plain fold. -/
theorem accSeverity_eq (calls : List CheckResult) (h : ∀ r ∈ calls, ValidResult r) :
    accSeverity calls =
      calls.foldl (fun acc r => r.detections.foldl (fun a d => bump a d.severity) acc) [] := by
  unfold accSeverity
  exact fold_if_valid _ calls [] h

/-- The pattern accumulation of valid calls, as a plain fold. -/
theorem accPattern_eq (calls : List CheckResult) (h : ∀ r ∈ calls, ValidResult r) :
    accPattern calls =
      calls.foldl (fun acc r => r.detections.foldl (fun a d => bump a d.dtype) acc) [] := by
  unfold accPattern
  exact fold_if_valid _ calls [] h

/-- Claim C8 (confirmed).  With alert threshold `T ≥ 1` and alerts
enabled, a run of exactly `T` hallucination detections (each with
severities on the ladder) fires no alert before the `T`-th call and
exactly one alert at it; the snapshot count equals `T`; the counter is
then zero while the severity and pattern breakdowns keep the full
accumulated history; the next detection counts from zero up to one (for
`T ≥ 2`) without another alert.  The closed conjuncts run the default
threshold `5` with critical detections. -/
theorem C8_theorem :
    (∀ (T : Nat) (p : String) (calls : List CheckResult),
      1 ≤ T → calls.length = T → (∀ r ∈ calls, ValidResult r) →
      (∀ k, k < T → (runLog (initMonitor true T) p (calls.take k)).firedAlerts = []) ∧
      ((runLog (initMonitor true T) p calls).firedAlerts.map
        (fun a => a.hallucinationCount)) = [T] ∧
      (getProj (runLog (initMonitor true T) p calls) p).hallucinationsDetected = 0 ∧
      (getProj (runLog (initMonitor true T) p calls) p).severityBreakdown =
        accSeverity calls ∧
      (getProj (runLog (initMonitor true T) p calls) p).commonPatterns =
        accPattern calls ∧
      (∀ r', ValidResult r' → 2 ≤ T →
        (getProj (runLog (initMonitor true T) p (calls ++ [r'])) p).hallucinationsDetected = 1 ∧
        (runLog (initMonitor true T) p (calls ++ [r'])).firedAlerts.length = 1)) ∧
    (runLog (initMonitor true 5) "proj" (List.replicate 4 critResult)).firedAlerts = [] ∧
    (runLog (initMonitor true 5) "proj" (List.replicate 5 critResult)).firedAlerts.map
      (fun a => a.hallucinationCount) = [5] ∧
    (getProj (runLog (initMonitor true 5) "proj" (List.replicate 5 critResult))
      "proj").hallucinationsDetected = 0 ∧
    countOf (getProj (runLog (initMonitor true 5) "proj" (List.replicate 5 critResult))
      "proj").severityBreakdown "critical" = 5 ∧
    (getProj (runLog (initMonitor true 5) "proj" (List.replicate 6 critResult))
      "proj").hallucinationsDetected = 1 ∧
    (runLog (initMonitor true 5) "proj" (List.replicate 6 critResult)).firedAlerts.length = 1 := by
  refine ⟨?_, by decide, by decide, by decide, by decide, by decide, by decide⟩
  intro T p calls hT hlen hval
  have hinit_proj : getProj (initMonitor true T) p = emptyMetrics := rfl
  have hinitalerts : (initMonitor true T).firedAlerts = [] := rfl
  have hpre : ∀ k, k < T →
      (runLog (initMonitor true T) p (calls.take k)).firedAlerts = [] := by
    intro k hk
    have hsub : ∀ r ∈ calls.take k, ValidResult r :=
      fun r hr => hval r (List.mem_of_mem_take hr)
    have hcnt : (getProj (initMonitor true T) p).hallucinationsDetected +
        (calls.take k).length < (initMonitor true T).alertThreshold := by
      rw [hinit_proj]
      have := List.length_take_le k calls
      simp only [emptyMetrics]
      show 0 + (calls.take k).length < T
      omega
    exact (runLog_below p (calls.take k) (initMonitor true T) hsub rfl hcnt).1
  obtain ⟨L, b, rfl⟩ : ∃ L b, calls = L ++ [b] := by
    rcases List.eq_nil_or_concat calls with h | ⟨L, b, h⟩
    · rw [h] at hlen
      simp at hlen
      omega
    · exact ⟨L, b, by rw [h, List.concat_eq_append]⟩
  have hlenL : L.length + 1 = T := by
    simpa using hlen
  have hvalL : ∀ r ∈ L, ValidResult r := fun r hr => hval r (by simp [hr])
  have hvalb : ValidResult b := hval b (by simp)
  have hcntL : (getProj (initMonitor true T) p).hallucinationsDetected + L.length <
      (initMonitor true T).alertThreshold := by
    rw [hinit_proj]
    show 0 + L.length < T
    omega
  have hbelow := runLog_below p L (initMonitor true T) hvalL rfl hcntL
  have hfoldPre := fold_record_fields L emptyMetrics hvalL
  have hproj : getProj (runLog (initMonitor true T) p L) p =
      L.foldl recordDetections emptyMetrics := by
    rw [hbelow.2.2.2, hinit_proj]
  have hcounter : (getProj (runLog (initMonitor true T) p L) p).hallucinationsDetected =
      L.length := by
    rw [hproj, hfoldPre.1]
    simp [emptyMetrics]
  have hrec := recordDetections_fields (getProj (runLog (initMonitor true T) p L) p) b hvalb.1
  have hrT : (recordDetections (getProj (runLog (initMonitor true T) p L) p)
      b).hallucinationsDetected = T := by
    rw [hrec.2.1, hcounter]
    omega
  have hthr : (runLog (initMonitor true T) p L).alertThreshold = T := hbelow.2.2.1
  have hge : (recordDetections (getProj (runLog (initMonitor true T) p L) p)
      b).hallucinationsDetected ≥ (runLog (initMonitor true T) p L).alertThreshold := by
    rw [hrT, hthr]
  have hfire := log_step_fire (runLog (initMonitor true T) p L) p b hvalb hbelow.2.1 hge
  have hsplit : runLog (initMonitor true T) p (L ++ [b]) =
      (logHallucination (runLog (initMonitor true T) p L) p b).1 := by
    simp [runLog, List.foldl_append]
  have hsev : (recordDetections (getProj (runLog (initMonitor true T) p L) p)
      b).severityBreakdown = accSeverity (L ++ [b]) := by
    rw [hrec.2.2.1, hproj, hfoldPre.2.2.1, accSeverity_eq (L ++ [b]) hval,
      List.foldl_append]
    rfl
  have hpat : (recordDetections (getProj (runLog (initMonitor true T) p L) p)
      b).commonPatterns = accPattern (L ++ [b]) := by
    rw [hrec.2.2.2, hproj, hfoldPre.2.2.2, accPattern_eq (L ++ [b]) hval,
      List.foldl_append]
    rfl
  refine ⟨hpre, ?_, ?_, ?_, ?_, ?_⟩
  · rw [hsplit, hfire]
    simp [hbelow.1, hrT, hinitalerts]
  · rw [hsplit, hfire]
    simp [getProj, lookup_set]
  · rw [hsplit, hfire]
    simp only [getProj, lookup_set]
    exact hsev
  · rw [hsplit, hfire]
    simp only [getProj, lookup_set]
    exact hpat
  · intro r' hr' hT2
    have hsplit2 : runLog (initMonitor true T) p ((L ++ [b]) ++ [r']) =
        (logHallucination (runLog (initMonitor true T) p (L ++ [b])) p r').1 := by
      simp [runLog, List.foldl_append]
    have hfs : runLog (initMonitor true T) p (L ++ [b]) =
        (logHallucination (runLog (initMonitor true T) p L) p b).1 := hsplit
    have hfireState := hfire
    -- fields of the post-alert state
    have hproj0 : getProj (runLog (initMonitor true T) p (L ++ [b])) p =
        { recordDetections (getProj (runLog (initMonitor true T) p L) p) b with
          hallucinationsDetected := 0 } := by
      rw [hfs, hfireState]
      simp [getProj, lookup_set]
    have hen : (runLog (initMonitor true T) p (L ++ [b])).enableAlerts = true := by
      rw [hfs, hfireState]
      exact hbelow.2.1
    have hth2 : (runLog (initMonitor true T) p (L ++ [b])).alertThreshold = T := by
      rw [hfs, hfireState]
      exact hthr
    have hrec2 := recordDetections_fields
      (getProj (runLog (initMonitor true T) p (L ++ [b])) p) r' hr'.1
    have hlt2 : (recordDetections (getProj (runLog (initMonitor true T) p (L ++ [b])) p)
        r').hallucinationsDetected < (runLog (initMonitor true T) p (L ++ [b])).alertThreshold := by
      rw [hrec2.2.1, hproj0, hth2]
      simp only []
      omega
    have hstep2 := log_step_nofire (runLog (initMonitor true T) p (L ++ [b])) p r' hr' hen hlt2
    constructor
    · rw [hsplit2, hstep2]
      simp only [getProj, lookup_set] at hrec2 hproj0 ⊢
      rw [hrec2.2.1, hproj0]
    · rw [hsplit2, hstep2]
      show ((runLog (initMonitor true T) p (L ++ [b])).firedAlerts).length = 1
      rw [hfs, hfireState]
      simp [hbelow.1, hinitalerts]

/-- Claim C10 (confirmed).  When a logged detection result contains a
severity outside `["minor", "major", "critical"]` — such as the `"high"`
that the bundled detector assigns to `missing_verification` —
`_get_max_severity` raises an uncaught `ValueError`; at that point
`total_checks`, `hallucinations_detected` and the breakdowns have already
been incremented, while the alert check and the per-project detail append
never run.  The closed conjuncts feed the detector's own output for the
hallucinated claim into a fresh monitor. -/
theorem C10_theorem :
    (∀ (s : MonitorState) (p : String) (r : CheckResult),
      r.hallucinationsDetected = true →
      (∃ d ∈ r.detections, d.severity ∉ severityLevels) →
      (∃ e, (logHallucination s p r).2 = .error e) ∧
      getProj (logHallucination s p r).1 p = recordDetections (getProj s p) r ∧
      (getProj (logHallucination s p r).1 p).totalChecks = (getProj s p).totalChecks + 1 ∧
      (getProj (logHallucination s p r).1 p).hallucinationsDetected =
        (getProj s p).hallucinationsDetected + 1 ∧
      (logHallucination s p r).1.firedAlerts = s.firedAlerts ∧
      (logHallucination s p r).1.detailLogCount = s.detailLogCount) ∧
    highResult.hallucinationsDetected = true ∧
    highResult.detections.map (fun d => (d.dtype, d.severity)) =
      [("missing_failure_count", "critical"), ("incorrect_success_rate", "critical"),
       ("missing_verification", "high")] ∧
    (logHallucination (initMonitor true 5) "proj" highResult).2 =
      .error (.valueError "'high' is not in list") ∧
    (getProj (logHallucination (initMonitor true 5) "proj" highResult).1 "proj").totalChecks = 1 ∧
    (getProj (logHallucination (initMonitor true 5) "proj" highResult).1
      "proj").hallucinationsDetected = 1 ∧
    countOf (getProj (logHallucination (initMonitor true 5) "proj" highResult).1
      "proj").severityBreakdown "high" = 1 ∧
    (logHallucination (initMonitor true 5) "proj" highResult).1.firedAlerts = [] ∧
    (logHallucination (initMonitor true 5) "proj" highResult).1.detailLogCount = [] := by
  refine ⟨?_, by decide, by decide, by decide, by decide, by decide, by decide,
    by decide, by decide⟩
  intro s p r hr hex
  obtain ⟨e, he⟩ := getMaxAux_err r.detections "minor" hex
  have hgp : getProj ({ s with
      metrics := setProj s.metrics p (recordDetections (getProj s p) r) }) p =
      recordDetections (getProj s p) r := by
    simp [getProj, lookup_set]
  unfold logHallucination getMaxSeverity
  rw [he]
  exact ⟨⟨e, rfl⟩, hgp,
    by rw [hgp]; exact (recordDetections_fields _ r hr).1,
    by rw [hgp]; exact (recordDetections_fields _ r hr).2.1, rfl, rfl⟩

end CTR
